import Mathlib

/-!
Verification of the deno_task_shell executor (crates/deno_task_shell) against
its natural-language specification.

The Rust sources are shallowly embedded:

* machine integers (`i64`) are `Int` with explicit range/two's-complement
  normalisation where the Rust code can wrap or fail;
* `f64` is abstracted by a `FloatModel` parameter: the claims under
  verification depend on floats only through zero tests, so IEEE rounding is
  never needed;
* the async executor is modelled as a deterministic fuel-indexed function.
  The fuel argument is purely a termination artefact: every function burns
  one unit on entry and `Interrupt.outOfFuel` marks exhaustion.  Rust panics
  (`unwrap`, `todo!`, non-exhaustive matches) are `Interrupt.panicked`;
* the I/O boundary (command dispatch to builtins/PATH executables, glob
  file-system walks, path canonicalisation, the home directory, and the byte
  stream captured from a command-substitution pipe) is a record `Env` of
  abstract functions.  Pipes themselves carry no observable data for the
  properties proved here, so pipe wiring (pure plumbing of readers/writers)
  is elided; change sets, exit codes and state threading are translated
  exactly;
* `HashMap`s of the Rust code are association lists; the non-Windows branch
  of the case-sensitivity `cfg!` is modelled.
-/

set_option maxHeartbeats 2000000

namespace DenoTaskShell

/-- Association-list lookup, modelling `HashMap::get`. -/
def alist_get {α : Type} : List (String × α) → String → Option α
  | [], _ => none
  | (k, v) :: rest, n => if k = n then some v else alist_get rest n

/-- Association-list insert-or-replace, modelling `HashMap::insert`. -/
def alist_put {α : Type} : List (String × α) → String → α → List (String × α)
  | [], n, v => [(n, v)]
  | (k, w) :: rest, n, v =>
      if k = n then (n, v) :: rest else (k, w) :: alist_put rest n v

/-- Association-list removal, modelling `HashMap::remove`. -/
def alist_remove {α : Type} (l : List (String × α)) (n : String) :
    List (String × α) :=
  l.filter (fun p => p.1 ≠ n)

/-- Splitting a character list at every occurrence of `sep`, keeping empty
pieces — Rust `str::split(char)`. -/
def list_split_char (sep : Char) : List Char → List (List Char)
  | [] => [[]]
  | c :: rest =>
      let r := list_split_char sep rest
      if c = sep then [] :: r
      else
        match r with
        | h :: t => (c :: h) :: t
        | [] => [[c]]

/-- Rust `str::trim`: strip leading and trailing whitespace. -/
def chars_trim (l : List Char) : List Char :=
  ((l.dropWhile Char.isWhitespace).reverse.dropWhile
    Char.isWhitespace).reverse

/-- Rust `str::split_whitespace` collected to a vector: split on
whitespace, dropping empty pieces. -/
def split_whitespace (s : String) : List String :=
  ((s.data.splitOnP Char.isWhitespace).filter
    (fun l => ¬ l.isEmpty)).map (fun l => (⟨l⟩ : String))

/-- Abnormal termination of the model: a Rust panic (`unwrap`, `todo!`,
an unmatched pattern) or exhaustion of the termination fuel. -/
inductive Interrupt : Type
  | panicked (msg : String)
  | outOfFuel
  deriving DecidableEq, Repr

/-- Abstraction of `f64`.  The executor stores floats inside
`ArithmeticValue::Float`; every claim checked in this file depends on floats
only through `is_zero`, so the carrier and its operations are kept abstract.
`pcmp` models `PartialOrd::partial_cmp` (`none` on NaN), `beq` models
`PartialEq` (false on NaN), `isFinite` models `f64::is_finite`. -/
structure FloatModel : Type 1 where
  F : Type
  deq : DecidableEq F
  ofInt : Int → F
  add : F → F → F
  sub : F → F → F
  mul : F → F → F
  div : F → F → F
  rem : F → F → F
  pow : F → F → F
  neg : F → F
  isFinite : F → Bool
  isZero : F → Bool
  beq : F → F → Bool
  pcmp : F → F → Option Ordering
  parse : String → Option F
  render : F → String

/-- The trivial float model used to instantiate witnesses; the claims hold
for every `FloatModel`, so any instance will do. -/
def fmUnit : FloatModel where
  F := Unit
  deq := inferInstance
  ofInt := fun _ => ()
  add := fun _ _ => ()
  sub := fun _ _ => ()
  mul := fun _ _ => ()
  div := fun _ _ => ()
  rem := fun _ _ => ()
  pow := fun _ _ => ()
  neg := fun _ => ()
  isFinite := fun _ => true
  isZero := fun _ => true
  beq := fun _ _ => true
  pcmp := fun _ _ => some .eq
  parse := fun _ => none
  render := fun _ => "0"

/-! ### AST types (crates/deno_task_shell/src/parser.rs) -/

/-- `BooleanListOperator` from parser.rs: the `&&` / `||` connectives. -/
inductive BooleanListOperator : Type
  | And
  | Or
  deriving DecidableEq, Repr

/-- `BooleanListOperator::moves_next_for_exit_code` (parser.rs lines 98-101). -/
def BooleanListOperator.moves_next_for_exit_code
    (op : BooleanListOperator) (exit_code : Int) : Bool :=
  (op = BooleanListOperator.Or && exit_code != 0)
    || (op = BooleanListOperator.And && exit_code == 0)

/-- `PipeSequenceOperator` from parser.rs: `|` and `|&`. -/
inductive PipeSequenceOperator : Type
  | Stdout
  | StdoutStderr
  deriving DecidableEq, Repr

/-- `BinaryOp` of conditions (parser.rs). -/
inductive BinaryOp : Type
  | Equal
  | NotEqual
  | LessThan
  | LessThanOrEqual
  | GreaterThan
  | GreaterThanOrEqual
  deriving DecidableEq, Repr

/-- `UnaryOp` of conditions (parser.rs); every arm of the executor for these
is `todo!()`, so only the type is needed. -/
inductive UnaryOp : Type
  | FileExists
  | BlockSpecial
  | CharSpecial
  | Directory
  | RegularFile
  | SetGroupId
  | SymbolicLink
  | StickyBit
  | NamedPipe
  | Readable
  | SizeNonZero
  | TerminalFd
  | SetUserId
  | Writable
  | Executable
  | OwnedByEffectiveGroupId
  | ModifiedSinceLastRead
  | OwnedByEffectiveUserId
  | Socket
  | NonEmptyString
  | EmptyString
  | VariableSet
  | VariableNameReference
  deriving DecidableEq, Repr

/-- `BinaryArithmeticOp` (parser.rs). -/
inductive BinaryArithmeticOp : Type
  | Add
  | Subtract
  | Multiply
  | Divide
  | Modulo
  | Power
  | LeftShift
  | RightShift
  | BitwiseAnd
  | BitwiseXor
  | BitwiseOr
  | LogicalAnd
  | LogicalOr
  deriving DecidableEq, Repr

/-- `AssignmentOp` (parser.rs). -/
inductive AssignmentOp : Type
  | Assign
  | MultiplyAssign
  | DivideAssign
  | ModuloAssign
  | AddAssign
  | SubtractAssign
  | LeftShiftAssign
  | RightShiftAssign
  | BitwiseAndAssign
  | BitwiseXorAssign
  | BitwiseOrAssign
  deriving DecidableEq, Repr

/-- `UnaryArithmeticOp` (parser.rs). -/
inductive UnaryArithmeticOp : Type
  | Plus
  | Minus
  | LogicalNot
  | BitwiseNot
  deriving DecidableEq, Repr

/-- `PostArithmeticOp` (parser.rs). -/
inductive PostArithmeticOp : Type
  | Increment
  | Decrement
  deriving DecidableEq, Repr

/-- `RedirectFd` (parser.rs): an explicit fd number or the `&` form. -/
inductive RedirectFd : Type
  | Fd (fd : Nat)
  | StdoutStderr
  deriving DecidableEq, Repr

/-- `RedirectOpInput` (parser.rs). -/
inductive RedirectOpInput : Type
  | Redirect
  deriving DecidableEq, Repr

/-- `RedirectOpOutput` (parser.rs). -/
inductive RedirectOpOutput : Type
  | Overwrite
  | Append
  deriving DecidableEq, Repr

/-- `RedirectOp` (parser.rs). -/
inductive RedirectOp : Type
  | Input (op : RedirectOpInput)
  | Output (op : RedirectOpOutput)
  deriving DecidableEq, Repr

/-- `TildePrefix` (parser.rs). -/
structure TildePrefix : Type where
  user : Option String
  deriving DecidableEq, Repr

/-- `TildePrefix::only_tilde` (parser.rs). -/
def TildePrefix.only_tilde (t : TildePrefix) : Bool :=
  t.user.isNone

mutual

/-- `SequentialList` (parser.rs). -/
inductive SequentialList : Type
  | mk (items : List SequentialListItem)

/-- `SequentialListItem` (parser.rs). -/
inductive SequentialListItem : Type
  | mk (is_async : Bool) (sequence : Sequence)

/-- `Sequence` (parser.rs). -/
inductive Sequence : Type
  | ShellVar (var : EnvVar)
  | Pipeline (pipeline : Pipeline)
  | BooleanList (list : BooleanList)

/-- `BooleanList` (parser.rs). -/
inductive BooleanList : Type
  | mk (current : Sequence) (op : BooleanListOperator) (next : Sequence)

/-- `Pipeline` (parser.rs). -/
inductive Pipeline : Type
  | mk (negated : Bool) (inner : PipelineInner)

/-- `PipelineInner` (parser.rs). -/
inductive PipelineInner : Type
  | Command (command : Command)
  | PipeSequence (seq : PipeSequence)

/-- `PipeSequence` (parser.rs). -/
inductive PipeSequence : Type
  | mk (current : Command) (op : PipeSequenceOperator) (next : PipelineInner)

/-- `Command` (parser.rs). -/
inductive Command : Type
  | mk (inner : CommandInner) (redirect : Option Redirect)

/-- `CommandInner` (parser.rs).  Note: the executor snapshot
(execute.rs `execute_command`) has no arm for `For`. -/
inductive CommandInner : Type
  | Simple (command : SimpleCommand)
  | Subshell (list : SequentialList)
  | If (clause : IfClause)
  | For (loop : ForLoop)
  | ArithmeticExpression (arithmetic : Arithmetic)

/-- `SimpleCommand` (parser.rs). -/
inductive SimpleCommand : Type
  | mk (env_vars : List EnvVar) (args : List Word)

/-- `IfClause` (parser.rs). -/
inductive IfClause : Type
  | mk (condition : Condition) (then_body : SequentialList)
      (else_part : Option ElsePart)

/-- `ForLoop` (parser.rs). -/
inductive ForLoop : Type
  | mk (var_name : String) (wordlist : List Word) (body : SequentialList)

/-- `ElsePart` (parser.rs). -/
inductive ElsePart : Type
  | Elif (clause : IfClause)
  | Else (body : SequentialList)

/-- `Condition` (parser.rs). -/
inductive Condition : Type
  | mk (condition_inner : ConditionInner)

/-- `ConditionInner` (parser.rs). -/
inductive ConditionInner : Type
  | Binary (left : Word) (op : BinaryOp) (right : Word)
  | Unary (op : Option UnaryOp) (right : Word)

/-- `EnvVar` (parser.rs). -/
inductive EnvVar : Type
  | mk (name : String) (value : Word)

/-- `Word` (parser.rs): a newtype over a vector of parts. -/
inductive Word : Type
  | mk (parts : List WordPart)

/-- `VariableModifier` (parser.rs). -/
inductive VariableModifier : Type
  | Substring (begin_ : Word) (length : Option Word)
  | DefaultValue (w : Word)
  | AssignDefault (w : Word)
  | AlternateValue (w : Word)

/-- `WordPart` (parser.rs). -/
inductive WordPart : Type
  | Text (text : String)
  | Variable (name : String) (modifier : Option VariableModifier)
  | Command (list : SequentialList)
  | Quoted (parts : List WordPart)
  | Tilde (tilde : TildePrefix)
  | Arithmetic (arithmetic : Arithmetic)
  | ExitStatus

/-- `Redirect` (parser.rs). -/
inductive Redirect : Type
  | mk (maybe_fd : Option RedirectFd) (op : RedirectOp) (io_file : IoFile)

/-- `IoFile` (parser.rs). -/
inductive IoFile : Type
  | Word (word : Word)
  | Fd (fd : Nat)

/-- `Arithmetic` (parser.rs). -/
inductive Arithmetic : Type
  | mk (parts : List ArithmeticPart)

/-- `ArithmeticPart` (parser.rs). -/
inductive ArithmeticPart : Type
  | ParenthesesExpr (expr : Arithmetic)
  | VariableAssignment (name : String) (op : AssignmentOp)
      (value : ArithmeticPart)
  | TripleConditionalExpr (condition : ArithmeticPart)
      (true_expr : ArithmeticPart) (false_expr : ArithmeticPart)
  | BinaryArithmeticExpr (left : ArithmeticPart)
      (operator : BinaryArithmeticOp) (right : ArithmeticPart)
  | BinaryConditionalExpr (left : ArithmeticPart) (operator : BinaryOp)
      (right : ArithmeticPart)
  | UnaryArithmeticExpr (operator : UnaryArithmeticOp)
      (operand : ArithmeticPart)
  | PostArithmeticExpr (operand : ArithmeticPart)
      (operator : PostArithmeticOp)
  | Variable (name : String)
  | Number (text : String)

end

/-- `SequentialList.items` accessor. -/
def SequentialList.items : SequentialList → List SequentialListItem
  | .mk items => items

/-- `SequentialListItem.is_async` accessor. -/
def SequentialListItem.is_async : SequentialListItem → Bool
  | .mk b _ => b

/-- `SequentialListItem.sequence` accessor. -/
def SequentialListItem.sequence : SequentialListItem → Sequence
  | .mk _ s => s

/-- `BooleanList.current` accessor. -/
def BooleanList.current : BooleanList → Sequence
  | .mk c _ _ => c

/-- `BooleanList.op` accessor. -/
def BooleanList.op : BooleanList → BooleanListOperator
  | .mk _ o _ => o

/-- `BooleanList.next` accessor. -/
def BooleanList.next : BooleanList → Sequence
  | .mk _ _ n => n

/-- `Pipeline.negated` accessor. -/
def Pipeline.negated : Pipeline → Bool
  | .mk n _ => n

/-- `Pipeline.inner` accessor. -/
def Pipeline.inner : Pipeline → PipelineInner
  | .mk _ i => i

/-- `PipeSequence.current` accessor. -/
def PipeSequence.current : PipeSequence → Command
  | .mk c _ _ => c

/-- `PipeSequence.op` accessor. -/
def PipeSequence.op : PipeSequence → PipeSequenceOperator
  | .mk _ o _ => o

/-- `PipeSequence.next` accessor. -/
def PipeSequence.next : PipeSequence → PipelineInner
  | .mk _ _ n => n

/-- `Command.inner` accessor. -/
def Command.inner : Command → CommandInner
  | .mk i _ => i

/-- `Command.redirect` accessor. -/
def Command.redirect : Command → Option Redirect
  | .mk _ r => r

/-- `SimpleCommand.env_vars` accessor. -/
def SimpleCommand.env_vars : SimpleCommand → List EnvVar
  | .mk e _ => e

/-- `SimpleCommand.args` accessor. -/
def SimpleCommand.args : SimpleCommand → List Word
  | .mk _ a => a

/-- `EnvVar.name` accessor. -/
def EnvVar.name : EnvVar → String
  | .mk n _ => n

/-- `EnvVar.value` accessor. -/
def EnvVar.value : EnvVar → Word
  | .mk _ v => v

/-- `Word::into_parts` (parser.rs). -/
def Word.into_parts : Word → List WordPart
  | .mk parts => parts

/-- `Redirect.maybe_fd` accessor. -/
def Redirect.maybe_fd : Redirect → Option RedirectFd
  | .mk m _ _ => m

/-- `Redirect.op` accessor. -/
def Redirect.op : Redirect → RedirectOp
  | .mk _ o _ => o

/-- `Redirect.io_file` accessor. -/
def Redirect.io_file : Redirect → IoFile
  | .mk _ _ io => io

/-! ### Runtime types (crates/deno_task_shell/src/shell/types.rs) -/

/-- `EnvChange` (types.rs lines 289-303).  `PathBuf` is modelled as
`String`. -/
inductive EnvChange : Type
  | SetEnvVar (name : String) (value : String)
  | SetShellVar (name : String) (value : String)
  | AliasCommand (alias_name : String) (cmd : String)
  | UnAliasCommand (alias_name : String)
  | UnsetVar (name : String)
  | Cd (new_dir : String)
  deriving DecidableEq, Repr

/-- `CANCELLATION_EXIT_CODE` (types.rs). -/
def CANCELLATION_EXIT_CODE : Int := 130

/-- `ExecuteResult` (types.rs lines 311-315).  A `JoinHandle<i32>` is
modelled by the `i32` it eventually resolves to; completion order of
`select_all` is abstracted as list order. -/
inductive ExecuteResult : Type
  | Exit (code : Int) (handles : List Int)
  | Continue (code : Int) (changes : List EnvChange) (handles : List Int)
  deriving DecidableEq, Repr

/-- `ExecuteResult::for_cancellation` (types.rs). -/
def ExecuteResult.for_cancellation : ExecuteResult :=
  ExecuteResult.Exit CANCELLATION_EXIT_CODE []

/-- `ExecuteResult::from_exit_code` (types.rs). -/
def ExecuteResult.from_exit_code (exit_code : Int) : ExecuteResult :=
  ExecuteResult.Continue exit_code [] []

/-- `ExecuteResult::into_exit_code_and_handles` (types.rs). -/
def ExecuteResult.into_exit_code_and_handles :
    ExecuteResult → Int × List Int
  | .Exit code handles => (code, handles)
  | .Continue code _ handles => (code, handles)

/-- `ExecuteResult::into_handles` (types.rs). -/
def ExecuteResult.into_handles (r : ExecuteResult) : List Int :=
  r.into_exit_code_and_handles.2

/-- `ExecuteResult::into_changes` (types.rs). -/
def ExecuteResult.into_changes : ExecuteResult → List EnvChange
  | .Exit _ _ => []
  | .Continue _ changes _ => changes

/-- `ShellState` (types.rs lines 28-50).  The command registry and the
cancellation token are abstracted: `token_cancelled` is the observable bit
of the `CancellationToken`, command resolution lives behind `Env.dispatch`.
The `git_repository` / `git_root` / `git_branch` hint fields are caches of
file-system probes (`fs::read_to_string(.git/HEAD)`) and are elided; no
claim observes them. -/
structure ShellState : Type where
  env_vars : List (String × String)
  shell_vars : List (String × String)
  cwd : String
  alias_map : List (String × List String)
  token_cancelled : Bool
  last_command_cd : Bool
  last_command_exit_code : Int
  deriving DecidableEq, Repr

/-- The I/O boundary of the model.  `dispatch` abstracts
`resolve_custom_command` + `execute_unresolved_command_name` and the
`ShellCommand::execute` contract (shell/command.rs and the builtin crates);
`glob` abstracts `glob::glob_with` (`Except.error` is a `PatternError`
message, the `Ok` list is the filter-mapped path list); `canonicalize`
abstracts `fs_util::canonicalize_path`; `home_dir` abstracts
`dirs::home_dir`; `output` is the lossy-UTF-8 byte stream captured from the
stdout pipe of a command substitution
(`execute_with_stdout_as_text`). -/
structure Env : Type where
  dispatch : String → List String → ShellState → Except Interrupt ExecuteResult
  glob : String → Except String (List String)
  canonicalize : String → Option String
  home_dir : Option String
  output : SequentialList → ShellState → String
  open_read : String → Bool
  open_write : String → Bool

/-- `ShellState::get_var` (types.rs lines 118-128), non-Windows branch:
environment variables take precedence over shell variables. -/
def ShellState.get_var (st : ShellState) (name : String) : Option String :=
  match alist_get st.env_vars name with
  | some v => some v
  | none => alist_get st.shell_vars name

/-- `ShellState::set_cwd` (types.rs lines 150-195): records the new cwd and
keeps `$PWD` in sync.  The git-hint refresh it also performs is a
file-system probe and is elided (see `ShellState`). -/
def ShellState.set_cwd (st : ShellState) (cwd : String) : ShellState :=
  { st with cwd := cwd, env_vars := alist_put st.env_vars "PWD" cwd }

/-- Rust `Path::is_absolute` on Unix. -/
def path_is_absolute (p : String) : Bool :=
  match p.data with
  | '/' :: _ => true
  | _ => false

/-- `ShellState::apply_env_var` (types.rs lines 234-253), non-Windows
branch: `PWD` re-points the cwd when the value is an absolute,
canonicalizable path; every other name becomes an environment variable and
shadows any shell variable of the same name. -/
def ShellState.apply_env_var (st : ShellState) (env : Env)
    (name value : String) : ShellState :=
  if name = "PWD" then
    if path_is_absolute value then
      match env.canonicalize value with
      | some cwd => st.set_cwd cwd
      | none => st
    else st
  else
    { st with
      shell_vars := alist_remove st.shell_vars name
      env_vars := alist_put st.env_vars name value }

/-- `ShellState::apply_change` (types.rs lines 204-232). -/
def ShellState.apply_change (st : ShellState) (env : Env)
    (change : EnvChange) : ShellState :=
  match change with
  | .SetEnvVar name value => st.apply_env_var env name value
  | .SetShellVar name value =>
      if (alist_get st.env_vars name).isSome then
        st.apply_env_var env name value
      else
        { st with shell_vars := alist_put st.shell_vars name value }
  | .UnsetVar name =>
      { st with
        shell_vars := alist_remove st.shell_vars name
        env_vars := alist_remove st.env_vars name }
  | .Cd new_dir =>
      { st.set_cwd new_dir with last_command_cd := true }
  | .AliasCommand a cmd =>
      { st with
        alias_map := alist_put st.alias_map a (split_whitespace cmd) }
  | .UnAliasCommand a =>
      { st with alias_map := alist_remove st.alias_map a }

/-- `ShellState::apply_changes` (types.rs lines 197-202): clears
`last_command_cd`, then applies each change in order. -/
def ShellState.apply_changes (st : ShellState) (env : Env)
    (changes : List EnvChange) : ShellState :=
  changes.foldl (fun s c => s.apply_change env c)
    { st with last_command_cd := false }

/-- `ShellState::with_child_token` (types.rs lines 278-282): clones the
state with a child cancellation token; a child of a cancelled token starts
cancelled, so the observable bit is unchanged. -/
def ShellState.with_child_token (st : ShellState) : ShellState :=
  st

/-- `wait_handles` (execute.rs lines 216-236): joins spawned handles,
preferring the first non-zero code when the current one is 0 or the
cancellation code.  `select_all` completion order is abstracted as list
order, and the `token.cancel()` side effect is invisible to the pure
handle values. -/
def wait_handles (exit_code : Int) (handles : List Int) : Int :=
  handles.foldl
    (fun ec h =>
      if (ec = 0 ∨ ec = CANCELLATION_EXIT_CODE) ∧ h ≠ 0 then h else ec)
    exit_code

/-! ### The `i64` machine-integer model -/

/-- Smallest `i64`. -/
def i64_min : Int := -(2 ^ 63)

/-- Largest `i64`. -/
def i64_max : Int := 2 ^ 63 - 1

/-- Whether an integer is representable as `i64`. -/
def in_i64 (n : Int) : Bool :=
  (i64_min ≤ n) && (n ≤ i64_max)

/-- Two's-complement reading of an `i64` as `u64` bits. -/
def to_u64 (n : Int) : Nat :=
  (n % (2 ^ 64)).toNat

/-- Signed reading of `u64` bits as `i64`. -/
def of_u64 (m : Nat) : Int :=
  if m < 2 ^ 63 then (m : Int) else (m : Int) - 2 ^ 64

/-- `i64::checked_add`. -/
def i64_checked_add (a b : Int) : Option Int :=
  let r := a + b
  if in_i64 r then some r else none

/-- `i64::checked_sub`. -/
def i64_checked_sub (a b : Int) : Option Int :=
  let r := a - b
  if in_i64 r then some r else none

/-- `i64::checked_mul`. -/
def i64_checked_mul (a b : Int) : Option Int :=
  let r := a * b
  if in_i64 r then some r else none

/-- `i64::checked_div` for a non-zero divisor (the callers in types.rs test
the divisor first): C-style truncating division, `None` exactly on the
`MIN / -1` overflow. -/
def i64_checked_div (a b : Int) : Option Int :=
  if b = 0 then none
  else
    let r := Int.tdiv a b
    if in_i64 r then some r else none

/-- `i64::checked_rem` for a non-zero divisor: truncating remainder, `None`
on the `MIN % -1` overflow. -/
def i64_checked_rem (a b : Int) : Option Int :=
  if b = 0 then none
  else if a = i64_min ∧ b = -1 then none
  else some (Int.tmod a b)

/-- `i64::checked_shl` after the Rust `as u32` truncation of the shift
amount: the shift wraps bits (no value-overflow check), `None` iff the
truncated amount is `≥ 64`. -/
def i64_checked_shl (a b : Int) : Option Int :=
  let s := b.toNat % 2 ^ 32
  if s ≥ 64 then none else some (of_u64 (to_u64 a * 2 ^ s % 2 ^ 64))

/-- `i64::checked_shr` after `as u32` truncation: arithmetic
(sign-extending) shift, i.e. flooring division by `2^s`. -/
def i64_checked_shr (a b : Int) : Option Int :=
  let s := b.toNat % 2 ^ 32
  if s ≥ 64 then none else some (Int.fdiv a (2 ^ s))

/-- `i64::checked_pow` after `as u32` truncation of the exponent: `None`
iff the exact power leaves the `i64` range. -/
def i64_checked_pow (a b : Int) : Option Int :=
  let e := b.toNat % 2 ^ 32
  let r := a ^ e
  if in_i64 r then some r else none

/-- `i64` bitwise AND via two's-complement bits. -/
def i64_and (a b : Int) : Int :=
  of_u64 (Nat.land (to_u64 a) (to_u64 b))

/-- `i64` bitwise OR via two's-complement bits. -/
def i64_or (a b : Int) : Int :=
  of_u64 (Nat.lor (to_u64 a) (to_u64 b))

/-- `i64` bitwise XOR via two's-complement bits. -/
def i64_xor (a b : Int) : Int :=
  of_u64 (Nat.xor (to_u64 a) (to_u64 b))

/-- `i64` bitwise NOT: `!a = -a - 1`, never overflows. -/
def i64_not (a : Int) : Int :=
  -a - 1

/-- `i64::checked_neg`: `None` exactly at `MIN`. -/
def i64_checked_neg (a : Int) : Option Int :=
  if a = i64_min then none else some (-a)

/-- Rust `str::parse::<i64>`: an optional single sign, one or more ASCII
digits, value in range. -/
def parse_i64 (s : String) : Option Int :=
  let (neg, digits) :=
    match s.data with
    | '-' :: rest => (true, rest)
    | '+' :: rest => (false, rest)
    | l => (false, l)
  if digits.isEmpty then none
  else if ¬ digits.all (fun c => c.isDigit) then none
  else
    let n : Nat :=
      digits.foldl (fun acc c => acc * 10 + (c.toNat - ('0').toNat)) 0
    let v : Int := if neg then -(n : Int) else (n : Int)
    if in_i64 v then some v else none

/-! ### Arithmetic values (types.rs lines 557-1117) -/

/-- `ArithmeticValue` (types.rs): `Float` is declared first, which matters
for the derived `PartialOrd`. -/
inductive ArithmeticValue (fm : FloatModel) : Type
  | Float (f : fm.F)
  | Integer (i : Int)

/-- `ArithmeticResult` (types.rs): a value together with the change set it
accumulated. -/
structure ArithmeticResult (fm : FloatModel) : Type where
  value : ArithmeticValue fm
  changes : List EnvChange

/-- `ArithmeticResult::new`. -/
def ArithmeticResult.new {fm : FloatModel} (value : ArithmeticValue fm) :
    ArithmeticResult fm :=
  { value := value, changes := [] }

/-- `ArithmeticResult::with_changes`. -/
def ArithmeticResult.with_changes {fm : FloatModel}
    (r : ArithmeticResult fm) (changes : List EnvChange) :
    ArithmeticResult fm :=
  { r with changes := changes }

/-- `ArithmeticResult::is_zero` (types.rs lines 592-597). -/
def ArithmeticResult.is_zero {fm : FloatModel} (r : ArithmeticResult fm) :
    Bool :=
  match r.value with
  | .Integer v => v = 0
  | .Float f => fm.isZero f

/-- `Display for ArithmeticValue` (types.rs lines 575-582). -/
def ArithmeticValue.render {fm : FloatModel} : ArithmeticValue fm → String
  | .Float f => fm.render f
  | .Integer i => toString i

/-- `Display for ArithmeticResult` (types.rs lines 569-573). -/
def ArithmeticResult.render {fm : FloatModel} (r : ArithmeticResult fm) :
    String :=
  r.value.render

/-- Derived `PartialEq for ArithmeticValue`: variants must match; float
payloads use `f64` equality. -/
def ArithmeticValue.eqb {fm : FloatModel} :
    ArithmeticValue fm → ArithmeticValue fm → Bool
  | .Integer a, .Integer b => a = b
  | .Float a, .Float b => fm.beq a b
  | _, _ => false

/-- Derived `PartialOrd for ArithmeticValue`: earlier variants (`Float`)
compare less than later ones (`Integer`); same-variant payloads compare
pointwise. -/
def ArithmeticValue.pcmp {fm : FloatModel} :
    ArithmeticValue fm → ArithmeticValue fm → Option Ordering
  | .Float a, .Float b => fm.pcmp a b
  | .Float _, .Integer _ => some .lt
  | .Integer _, .Float _ => some .gt
  | .Integer a, .Integer b => some (compare a b)

/-- Derived `Ord for EnvChange` (`PartialOrd` is total here): variant
index first, then fields lexicographically.  Rust `String` order is byte
lexicographic; Lean `compare` is code-point lexicographic — they agree on
ASCII data, which is all the executor produces in the claims at hand. -/
def EnvChange.cmp : EnvChange → EnvChange → Ordering
  | .SetEnvVar a b, .SetEnvVar c d => (compare a c).then (compare b d)
  | .SetEnvVar _ _, _ => .lt
  | _, .SetEnvVar _ _ => .gt
  | .SetShellVar a b, .SetShellVar c d => (compare a c).then (compare b d)
  | .SetShellVar _ _, _ => .lt
  | _, .SetShellVar _ _ => .gt
  | .AliasCommand a b, .AliasCommand c d => (compare a c).then (compare b d)
  | .AliasCommand _ _, _ => .lt
  | _, .AliasCommand _ _ => .gt
  | .UnAliasCommand a, .UnAliasCommand c => compare a c
  | .UnAliasCommand _, _ => .lt
  | _, .UnAliasCommand _ => .gt
  | .UnsetVar a, .UnsetVar c => compare a c
  | .UnsetVar _, _ => .lt
  | _, .UnsetVar _ => .gt
  | .Cd a, .Cd c => compare a c

/-- Lexicographic `Vec` comparison (derived `PartialOrd` on a total
element order). -/
def list_cmp {α : Type} (cmp : α → α → Ordering) :
    List α → List α → Ordering
  | [], [] => .eq
  | [], _ :: _ => .lt
  | _ :: _, [] => .gt
  | a :: as_, b :: bs => (cmp a b).then (list_cmp cmp as_ bs)

/-- Derived `PartialOrd for ArithmeticResult`: `value` first (partial),
then `changes`. -/
def ArithmeticResult.pcmp {fm : FloatModel}
    (a b : ArithmeticResult fm) : Option Ordering :=
  match a.value.pcmp b.value with
  | none => none
  | some .eq => some (list_cmp EnvChange.cmp a.changes b.changes)
  | some o => some o

/-- Derived `PartialEq for ArithmeticResult`: both fields. -/
def ArithmeticResult.eqb {fm : FloatModel}
    (a b : ArithmeticResult fm) : Bool :=
  a.value.eqb b.value && decide (a.changes = b.changes)

/-- Rust `lhs < rhs` through `partial_cmp`. -/
def ArithmeticResult.ltb {fm : FloatModel}
    (a b : ArithmeticResult fm) : Bool :=
  a.pcmp b = some .lt

/-- Rust `lhs <= rhs` through `partial_cmp`. -/
def ArithmeticResult.leb {fm : FloatModel}
    (a b : ArithmeticResult fm) : Bool :=
  a.pcmp b = some .lt ∨ a.pcmp b = some .eq

/-- Rust `lhs > rhs` through `partial_cmp`. -/
def ArithmeticResult.gtb {fm : FloatModel}
    (a b : ArithmeticResult fm) : Bool :=
  a.pcmp b = some .gt

/-- Rust `lhs >= rhs` through `partial_cmp`. -/
def ArithmeticResult.geb {fm : FloatModel}
    (a b : ArithmeticResult fm) : Bool :=
  a.pcmp b = some .gt ∨ a.pcmp b = some .eq

/-- Merged change lists, as every checked operation computes them:
`self.changes` then `other.changes`. -/
def ArithmeticResult.merged_changes {fm : FloatModel}
    (a b : ArithmeticResult fm) : List EnvChange :=
  a.changes ++ b.changes

/-- `ArithmeticResult::checked_add` (types.rs lines 599-636). -/
def ArithmeticResult.checked_add {fm : FloatModel}
    (a b : ArithmeticResult fm) :
    Except String (ArithmeticResult fm) :=
  match a.value, b.value with
  | .Integer l, .Integer r =>
      match i64_checked_add l r with
      | some v =>
          .ok { value := .Integer v, changes := a.merged_changes b }
      | none =>
          .error ("Integer overflow: " ++ toString l ++ " + " ++ toString r)
  | .Float l, .Float r =>
      let sum := fm.add l r
      if fm.isFinite sum then
        .ok { value := .Float sum, changes := a.merged_changes b }
      else
        .error ("Float overflow: " ++ fm.render l ++ " + " ++ fm.render r)
  | .Integer l, .Float r =>
      let sum := fm.add (fm.ofInt l) r
      if fm.isFinite sum then
        .ok { value := .Float sum, changes := a.merged_changes b }
      else
        .error ("Float overflow: " ++ toString l ++ " + " ++ fm.render r)
  | .Float r, .Integer l =>
      -- the Rust code uses one or-pattern binding `lhs` to the integer
      -- in both mixed arms, so the integer is converted in either order
      let sum := fm.add (fm.ofInt l) r
      if fm.isFinite sum then
        .ok { value := .Float sum, changes := a.merged_changes b }
      else
        .error ("Float overflow: " ++ toString l ++ " + " ++ fm.render r)

/-- `ArithmeticResult::checked_sub` (types.rs lines 638-682); the mixed
arms are directional here. -/
def ArithmeticResult.checked_sub {fm : FloatModel}
    (a b : ArithmeticResult fm) :
    Except String (ArithmeticResult fm) :=
  match a.value, b.value with
  | .Integer l, .Integer r =>
      match i64_checked_sub l r with
      | some v =>
          .ok { value := .Integer v, changes := a.merged_changes b }
      | none =>
          .error ("Integer overflow: " ++ toString l ++ " - " ++ toString r)
  | .Float l, .Float r =>
      let diff := fm.sub l r
      if fm.isFinite diff then
        .ok { value := .Float diff, changes := a.merged_changes b }
      else
        .error ("Float overflow: " ++ fm.render l ++ " - " ++ fm.render r)
  | .Integer l, .Float r =>
      let diff := fm.sub (fm.ofInt l) r
      if fm.isFinite diff then
        .ok { value := .Float diff, changes := a.merged_changes b }
      else
        .error ("Float overflow: " ++ toString l ++ " - " ++ fm.render r)
  | .Float l, .Integer r =>
      let diff := fm.sub l (fm.ofInt r)
      if fm.isFinite diff then
        .ok { value := .Float diff, changes := a.merged_changes b }
      else
        .error ("Float overflow: " ++ fm.render l ++ " - " ++ toString r)

/-- `ArithmeticResult::checked_mul` (types.rs lines 684-721). -/
def ArithmeticResult.checked_mul {fm : FloatModel}
    (a b : ArithmeticResult fm) :
    Except String (ArithmeticResult fm) :=
  match a.value, b.value with
  | .Integer l, .Integer r =>
      match i64_checked_mul l r with
      | some v =>
          .ok { value := .Integer v, changes := a.merged_changes b }
      | none =>
          .error ("Integer overflow: " ++ toString l ++ " * " ++ toString r)
  | .Float l, .Float r =>
      let product := fm.mul l r
      if fm.isFinite product then
        .ok { value := .Float product, changes := a.merged_changes b }
      else
        .error ("Float overflow: " ++ fm.render l ++ " * " ++ fm.render r)
  | .Integer l, .Float r =>
      let product := fm.mul (fm.ofInt l) r
      if fm.isFinite product then
        .ok { value := .Float product, changes := a.merged_changes b }
      else
        .error ("Float overflow: " ++ toString l ++ " * " ++ fm.render r)
  | .Float r, .Integer l =>
      let product := fm.mul (fm.ofInt l) r
      if fm.isFinite product then
        .ok { value := .Float product, changes := a.merged_changes b }
      else
        .error ("Float overflow: " ++ toString l ++ " * " ++ fm.render r)

/-- `ArithmeticResult::checked_div` (types.rs lines 723-781): zero divisor
and overflow/non-finite results are errors. -/
def ArithmeticResult.checked_div {fm : FloatModel}
    (a b : ArithmeticResult fm) :
    Except String (ArithmeticResult fm) :=
  match a.value, b.value with
  | .Integer l, .Integer r =>
      if r = 0 then
        .error ("Division by zero: " ++ toString l ++ " / " ++ toString r)
      else
        match i64_checked_div l r with
        | some v =>
            .ok { value := .Integer v, changes := a.merged_changes b }
        | none =>
            .error
              ("Integer overflow: " ++ toString l ++ " / " ++ toString r)
  | .Float l, .Float r =>
      if fm.isZero r then
        .error
          ("Division by zero: " ++ fm.render l ++ " / " ++ fm.render r)
      else
        let quotient := fm.div l r
        if fm.isFinite quotient then
          .ok { value := .Float quotient, changes := a.merged_changes b }
        else
          .error
            ("Float overflow: " ++ fm.render l ++ " / " ++ fm.render r)
  | .Integer l, .Float r =>
      if fm.isZero r then
        .error ("Division by zero: " ++ toString l ++ " / " ++ fm.render r)
      else
        let quotient := fm.div (fm.ofInt l) r
        if fm.isFinite quotient then
          .ok { value := .Float quotient, changes := a.merged_changes b }
        else
          .error ("Float overflow: " ++ toString l ++ " / " ++ fm.render r)
  | .Float l, .Integer r =>
      if r = 0 then
        .error ("Division by zero: " ++ fm.render l ++ " / " ++ toString r)
      else
        let quotient := fm.div l (fm.ofInt r)
        if fm.isFinite quotient then
          .ok { value := .Float quotient, changes := a.merged_changes b }
        else
          .error ("Float overflow: " ++ fm.render l ++ " / " ++ toString r)

/-- `ArithmeticResult::checked_rem` (types.rs lines 783-841). -/
def ArithmeticResult.checked_rem {fm : FloatModel}
    (a b : ArithmeticResult fm) :
    Except String (ArithmeticResult fm) :=
  match a.value, b.value with
  | .Integer l, .Integer r =>
      if r = 0 then
        .error ("Modulo by zero: " ++ toString l ++ " % " ++ toString r)
      else
        match i64_checked_rem l r with
        | some v =>
            .ok { value := .Integer v, changes := a.merged_changes b }
        | none =>
            .error
              ("Integer overflow: " ++ toString l ++ " % " ++ toString r)
  | .Float l, .Float r =>
      if fm.isZero r then
        .error ("Modulo by zero: " ++ fm.render l ++ " % " ++ fm.render r)
      else
        let remainder := fm.rem l r
        if fm.isFinite remainder then
          .ok { value := .Float remainder, changes := a.merged_changes b }
        else
          .error ("Float overflow: " ++ fm.render l ++ " % " ++ fm.render r)
  | .Integer l, .Float r =>
      if fm.isZero r then
        .error ("Modulo by zero: " ++ toString l ++ " % " ++ fm.render r)
      else
        let remainder := fm.rem (fm.ofInt l) r
        if fm.isFinite remainder then
          .ok { value := .Float remainder, changes := a.merged_changes b }
        else
          .error ("Float overflow: " ++ toString l ++ " % " ++ fm.render r)
  | .Float l, .Integer r =>
      if r = 0 then
        .error ("Modulo by zero: " ++ fm.render l ++ " % " ++ toString r)
      else
        let remainder := fm.rem l (fm.ofInt r)
        if fm.isFinite remainder then
          .ok { value := .Float remainder, changes := a.merged_changes b }
        else
          .error ("Float overflow: " ++ fm.render l ++ " % " ++ toString r)

/-- `ArithmeticResult::checked_pow` (types.rs lines 843-898): a negative
integer exponent promotes to the float power. -/
def ArithmeticResult.checked_pow {fm : FloatModel}
    (a b : ArithmeticResult fm) :
    Except String (ArithmeticResult fm) :=
  match a.value, b.value with
  | .Integer l, .Integer r =>
      if r < 0 then
        let result := fm.pow (fm.ofInt l) (fm.ofInt r)
        if fm.isFinite result then
          .ok { value := .Float result, changes := a.merged_changes b }
        else
          .error ("Float overflow: " ++ toString l ++ " ** " ++ toString r)
      else
        match i64_checked_pow l r with
        | some v =>
            .ok { value := .Integer v, changes := a.merged_changes b }
        | none =>
            .error
              ("Integer overflow: " ++ toString l ++ " ** " ++ toString r)
  | .Float l, .Float r =>
      let result := fm.pow l r
      if fm.isFinite result then
        .ok { value := .Float result, changes := a.merged_changes b }
      else
        .error ("Float overflow: " ++ fm.render l ++ " ** " ++ fm.render r)
  | .Integer l, .Float r =>
      let result := fm.pow (fm.ofInt l) r
      if fm.isFinite result then
        .ok { value := .Float result, changes := a.merged_changes b }
      else
        .error ("Float overflow: " ++ toString l ++ " ** " ++ fm.render r)
  | .Float l, .Integer r =>
      let result := fm.pow l (fm.ofInt r)
      if fm.isFinite result then
        .ok { value := .Float result, changes := a.merged_changes b }
      else
        .error ("Float overflow: " ++ fm.render l ++ " ** " ++ toString r)

/-- `ArithmeticResult::checked_neg` (types.rs lines 900-920). -/
def ArithmeticResult.checked_neg {fm : FloatModel}
    (a : ArithmeticResult fm) : Except String (ArithmeticResult fm) :=
  match a.value with
  | .Integer v =>
      match i64_checked_neg v with
      | some r => .ok { value := .Integer r, changes := a.changes }
      | none => .error ("Integer overflow: -" ++ toString v)
  | .Float v =>
      let result := fm.neg v
      if fm.isFinite result then
        .ok { value := .Float result, changes := a.changes }
      else
        .error ("Float overflow: -" ++ fm.render v)

/-- `ArithmeticResult::checked_not` (types.rs lines 922-937): floats are an
error. -/
def ArithmeticResult.checked_not {fm : FloatModel}
    (a : ArithmeticResult fm) : Except String (ArithmeticResult fm) :=
  match a.value with
  | .Integer v =>
      .ok { value := .Integer (i64_not v), changes := a.changes }
  | .Float _ =>
      .error
        ("Invalid arithmetic result type for bitwise NOT: " ++ a.render)

/-- `ArithmeticResult::checked_shl` (types.rs lines 939-975): integer
operands only, negative shifts are errors. -/
def ArithmeticResult.checked_shl {fm : FloatModel}
    (a b : ArithmeticResult fm) :
    Except String (ArithmeticResult fm) :=
  match a.value, b.value with
  | .Integer l, .Integer r =>
      if r < 0 then
        .error
          ("Negative shift amount: " ++ toString l ++ " << " ++ toString r)
      else
        match i64_checked_shl l r with
        | some v =>
            .ok { value := .Integer v, changes := a.merged_changes b }
        | none =>
            .error
              ("Integer overflow: " ++ toString l ++ " << " ++ toString r)
  | _, _ =>
      .error
        ("Invalid arithmetic result types for left shift: " ++ a.render
          ++ " << " ++ b.render)

/-- `ArithmeticResult::checked_shr` (types.rs lines 977-1013). -/
def ArithmeticResult.checked_shr {fm : FloatModel}
    (a b : ArithmeticResult fm) :
    Except String (ArithmeticResult fm) :=
  match a.value, b.value with
  | .Integer l, .Integer r =>
      if r < 0 then
        .error
          ("Negative shift amount: " ++ toString l ++ " >> " ++ toString r)
      else
        match i64_checked_shr l r with
        | some v =>
            .ok { value := .Integer v, changes := a.merged_changes b }
        | none =>
            .error
              ("Integer underflow: " ++ toString l ++ " >> " ++ toString r)
  | _, _ =>
      .error
        ("Invalid arithmetic result types for right shift: " ++ a.render
          ++ " >> " ++ b.render)

/-- `ArithmeticResult::checked_and` (types.rs lines 1015-1039). -/
def ArithmeticResult.checked_and {fm : FloatModel}
    (a b : ArithmeticResult fm) :
    Except String (ArithmeticResult fm) :=
  match a.value, b.value with
  | .Integer l, .Integer r =>
      .ok { value := .Integer (i64_and l r), changes := a.merged_changes b }
  | _, _ =>
      .error
        ("Invalid arithmetic result types for bitwise AND: " ++ a.render
          ++ " & " ++ b.render)

/-- `ArithmeticResult::checked_or` (types.rs lines 1041-1065). -/
def ArithmeticResult.checked_or {fm : FloatModel}
    (a b : ArithmeticResult fm) :
    Except String (ArithmeticResult fm) :=
  match a.value, b.value with
  | .Integer l, .Integer r =>
      .ok { value := .Integer (i64_or l r), changes := a.merged_changes b }
  | _, _ =>
      .error
        ("Invalid arithmetic result types for bitwise OR: " ++ a.render
          ++ " | " ++ b.render)

/-- `ArithmeticResult::checked_xor` (types.rs lines 1067-1091). -/
def ArithmeticResult.checked_xor {fm : FloatModel}
    (a b : ArithmeticResult fm) :
    Except String (ArithmeticResult fm) :=
  match a.value, b.value with
  | .Integer l, .Integer r =>
      .ok { value := .Integer (i64_xor l r), changes := a.merged_changes b }
  | _, _ =>
      .error
        ("Invalid arithmetic result types for bitwise XOR: " ++ a.render
          ++ " ^ " ++ b.render)

/-- `From<String> for ArithmeticResult` / `FromStr` (types.rs lines
1099-1117): an `i64` if it parses, else an `f64`, else a panic — the
`FromStr` impl wraps the panicking `From<String>`, so `parse()` never
returns `Err` and the `map_err` calls in execute.rs are dead code. -/
def ArithmeticResult.parse (fm : FloatModel) (s : String) :
    Except Interrupt (ArithmeticResult fm) :=
  match parse_i64 s with
  | some i => .ok (ArithmeticResult.new (.Integer i))
  | none =>
      match fm.parse s with
      | some f => .ok (ArithmeticResult.new (.Float f))
      | none => .error (.panicked ("Invalid arithmetic result: " ++ s))

/-! ### Arithmetic evaluation (execute.rs lines 552-747) -/

/-- `apply_binary_op` (execute.rs lines 664-692).  Note the `LogicalAnd`
arm: it yields integer 0 exactly when both operands are zero and 1
otherwise, which is disjunction, not conjunction, of the non-zero tests. -/
def apply_binary_op {fm : FloatModel} (lhs : ArithmeticResult fm)
    (op : BinaryArithmeticOp) (rhs : ArithmeticResult fm) :
    Except String (ArithmeticResult fm) :=
  match op with
  | .Add => lhs.checked_add rhs
  | .Subtract => lhs.checked_sub rhs
  | .Multiply => lhs.checked_mul rhs
  | .Divide => lhs.checked_div rhs
  | .Modulo => lhs.checked_rem rhs
  | .Power => lhs.checked_pow rhs
  | .LeftShift => lhs.checked_shl rhs
  | .RightShift => lhs.checked_shr rhs
  | .BitwiseAnd => lhs.checked_and rhs
  | .BitwiseXor => lhs.checked_xor rhs
  | .BitwiseOr => lhs.checked_or rhs
  | .LogicalAnd =>
      .ok
        (if lhs.is_zero && rhs.is_zero then
          ArithmeticResult.new (.Integer 0)
        else
          ArithmeticResult.new (.Integer 1))
  | .LogicalOr =>
      .ok
        (if !lhs.is_zero || !rhs.is_zero then
          ArithmeticResult.new (.Integer 1)
        else
          ArithmeticResult.new (.Integer 0))

/-- `apply_conditional_binary_op` (execute.rs lines 694-731). -/
def apply_conditional_binary_op {fm : FloatModel}
    (lhs : ArithmeticResult fm) (op : BinaryOp)
    (rhs : ArithmeticResult fm) :
    Except String (ArithmeticResult fm) :=
  match op with
  | .Equal =>
      .ok
        (if lhs.eqb rhs then ArithmeticResult.new (.Integer 1)
        else ArithmeticResult.new (.Integer 0))
  | .NotEqual =>
      .ok
        (if ¬ lhs.eqb rhs then ArithmeticResult.new (.Integer 1)
        else ArithmeticResult.new (.Integer 0))
  | .LessThan =>
      .ok
        (if lhs.ltb rhs then ArithmeticResult.new (.Integer 1)
        else ArithmeticResult.new (.Integer 0))
  | .LessThanOrEqual =>
      .ok
        (if lhs.leb rhs then ArithmeticResult.new (.Integer 1)
        else ArithmeticResult.new (.Integer 0))
  | .GreaterThan =>
      .ok
        (if lhs.gtb rhs then ArithmeticResult.new (.Integer 1)
        else ArithmeticResult.new (.Integer 0))
  | .GreaterThanOrEqual =>
      .ok
        (if lhs.geb rhs then ArithmeticResult.new (.Integer 1)
        else ArithmeticResult.new (.Integer 0))

/-- `apply_unary_op` (execute.rs lines 733-747). -/
def apply_unary_op {fm : FloatModel} (op : UnaryArithmeticOp)
    (val : ArithmeticResult fm) : Except String (ArithmeticResult fm) :=
  match op with
  | .Plus => .ok val
  | .Minus => val.checked_neg
  | .LogicalNot =>
      .ok
        (if val.is_zero then ArithmeticResult.new (.Integer 1)
        else ArithmeticResult.new (.Integer 0))
  | .BitwiseNot => val.checked_not

mutual

/-- `evaluate_arithmetic` (execute.rs lines 559-568): the parts of a comma
list evaluate in order against the threaded state, each part's result
replacing the previous one (so only the last part's change set survives in
the returned result). -/
def evaluate_arithmetic (fm : FloatModel) (env : Env) :
    Nat → Arithmetic → ShellState →
    Except Interrupt (Except String (ArithmeticResult fm × ShellState))
  | 0, _, _ => .error .outOfFuel
  | Nat.succ f, .mk parts, st =>
      evaluate_arithmetic_parts fm env f parts
        (ArithmeticResult.new (.Integer 0)) st
termination_by structural fuel => fuel

/-- The `for part in &arithmetic.parts` loop of `evaluate_arithmetic`. -/
def evaluate_arithmetic_parts (fm : FloatModel) (env : Env) :
    Nat → List ArithmeticPart → ArithmeticResult fm → ShellState →
    Except Interrupt (Except String (ArithmeticResult fm × ShellState))
  | 0, _, _, _ => .error .outOfFuel
  | Nat.succ _, [], result, st => .ok (.ok (result, st))
  | Nat.succ f, part :: rest, _, st =>
      match evaluate_arithmetic_part fm env f part st with
      | .error i => .error i
      | .ok (.error msg) => .ok (.error msg)
      | .ok (.ok (result, st1)) =>
          evaluate_arithmetic_parts fm env f rest result st1
termination_by structural fuel => fuel

/-- `evaluate_arithmetic_part` (execute.rs lines 570-661).  The
`map_err` on variable parsing is dead code because `FromStr` for
`ArithmeticResult` panics instead of failing (see
`ArithmeticResult.parse`). -/
def evaluate_arithmetic_part (fm : FloatModel) (env : Env) :
    Nat → ArithmeticPart → ShellState →
    Except Interrupt (Except String (ArithmeticResult fm × ShellState))
  | 0, _, _ => .error .outOfFuel
  | Nat.succ f, part, st =>
      match part with
      | .ParenthesesExpr expr => evaluate_arithmetic fm env f expr st
      | .VariableAssignment name op value =>
          match evaluate_arithmetic_part fm env f value st with
          | .error i => .error i
          | .ok (.error msg) => .ok (.error msg)
          | .ok (.ok (val, st1)) =>
              -- each compound arm reads the prior value of `name` from the
              -- state and puts the freshly evaluated `val` on the LEFT of
              -- the checked operation (`val.checked_sub(&parsed_var)` and
              -- so on); the `_ => unreachable!()` arm of the inner Rust
              -- match is dead and has no counterpart here
              let compound :
                  (ArithmeticResult fm → ArithmeticResult fm →
                    Except String (ArithmeticResult fm)) →
                  Except Interrupt (Except String (ArithmeticResult fm)) :=
                fun k =>
                  match st1.get_var name with
                  | none => .ok (.error ("Undefined variable: " ++ name))
                  | some var =>
                      match ArithmeticResult.parse fm var with
                      | .error i => .error i
                      | .ok parsed_var => .ok (k val parsed_var)
              let applied :
                  Except Interrupt (Except String (ArithmeticResult fm)) :=
                match op with
                | .Assign => .ok (.ok val)
                | .MultiplyAssign => compound (fun a b => a.checked_mul b)
                | .DivideAssign => compound (fun a b => a.checked_div b)
                | .ModuloAssign => compound (fun a b => a.checked_rem b)
                | .AddAssign => compound (fun a b => a.checked_add b)
                | .SubtractAssign => compound (fun a b => a.checked_sub b)
                | .LeftShiftAssign => compound (fun a b => a.checked_shl b)
                | .RightShiftAssign => compound (fun a b => a.checked_shr b)
                | .BitwiseAndAssign => compound (fun a b => a.checked_and b)
                | .BitwiseXorAssign => compound (fun a b => a.checked_xor b)
                | .BitwiseOrAssign => compound (fun a b => a.checked_or b)
              match applied with
              | .error i => .error i
              | .ok (.error msg) => .ok (.error msg)
              | .ok (.ok applied_value) =>
                  let st2 :=
                    st1.apply_env_var env name applied_value.render
                  .ok
                    (.ok
                      (applied_value.with_changes
                        [EnvChange.SetShellVar name applied_value.render],
                        st2))
      | .TripleConditionalExpr condition true_expr false_expr =>
          match evaluate_arithmetic_part fm env f condition st with
          | .error i => .error i
          | .ok (.error msg) => .ok (.error msg)
          | .ok (.ok (cond, st1)) =>
              if cond.is_zero then
                evaluate_arithmetic_part fm env f true_expr st1
              else
                evaluate_arithmetic_part fm env f false_expr st1
      | .BinaryArithmeticExpr left operator right =>
          match evaluate_arithmetic_part fm env f left st with
          | .error i => .error i
          | .ok (.error msg) => .ok (.error msg)
          | .ok (.ok (lhs, st1)) =>
              match evaluate_arithmetic_part fm env f right st1 with
              | .error i => .error i
              | .ok (.error msg) => .ok (.error msg)
              | .ok (.ok (rhs, st2)) =>
                  match apply_binary_op lhs operator rhs with
                  | .error msg => .ok (.error msg)
                  | .ok r => .ok (.ok (r, st2))
      | .BinaryConditionalExpr left operator right =>
          match evaluate_arithmetic_part fm env f left st with
          | .error i => .error i
          | .ok (.error msg) => .ok (.error msg)
          | .ok (.ok (lhs, st1)) =>
              match evaluate_arithmetic_part fm env f right st1 with
              | .error i => .error i
              | .ok (.error msg) => .ok (.error msg)
              | .ok (.ok (rhs, st2)) =>
                  match apply_conditional_binary_op lhs operator rhs with
                  | .error msg => .ok (.error msg)
                  | .ok r => .ok (.ok (r, st2))
      | .UnaryArithmeticExpr operator operand =>
          match evaluate_arithmetic_part fm env f operand st with
          | .error i => .error i
          | .ok (.error msg) => .ok (.error msg)
          | .ok (.ok (val, st1)) =>
              match apply_unary_op operator val with
              | .error msg => .ok (.error msg)
              | .ok r => .ok (.ok (r, st1))
      | .PostArithmeticExpr operand _ =>
          match evaluate_arithmetic_part fm env f operand st with
          | .error i => .error i
          | .ok (.error msg) => .ok (.error msg)
          | .ok (.ok (val, st1)) => .ok (.ok (val, st1))
      | .Variable name =>
          match st.get_var name with
          | none =>
              .ok (.error ("Undefined or non-integer variable: " ++ name))
          | some s =>
              match ArithmeticResult.parse fm s with
              | .error i => .error i
              | .ok r => .ok (.ok (r, st))
      | .Number num_str =>
          match ArithmeticResult.parse fm num_str with
          | .error i => .error i
          | .ok r => .ok (.ok (r, st))
termination_by structural fuel => fuel

end

/-- `execute_arithmetic_expression` (execute.rs lines 552-557): evaluates
against its own copy of the state and returns only the result. -/
def execute_arithmetic_expression (fm : FloatModel) (env : Env) :
    Nat → Arithmetic → ShellState →
    Except Interrupt (Except String (ArithmeticResult fm))
  | 0, _, _ => .error .outOfFuel
  | Nat.succ f, arithmetic, st =>
      match evaluate_arithmetic fm env f arithmetic st with
      | .error i => .error i
      | .ok (.error msg) => .ok (.error msg)
      | .ok (.ok (r, _)) => .ok (.ok r)

/-! ### Word expansion (execute.rs lines 1064-1443) -/

/-- `WordPartsResult` (types.rs lines 1119-1144). -/
structure WordPartsResult : Type where
  value : List String
  changes : List EnvChange
  deriving DecidableEq, Repr

/-- `WordPartsResult::new`. -/
def WordPartsResult.new (value : List String) (changes : List EnvChange) :
    WordPartsResult :=
  { value := value, changes := changes }

/-- `WordPartsResult::extend`. -/
def WordPartsResult.extend (a b : WordPartsResult) : WordPartsResult :=
  { value := a.value ++ b.value, changes := a.changes ++ b.changes }

/-- `WordPartsResult::join`. -/
def WordPartsResult.join (a : WordPartsResult) (sep : String) : String :=
  String.intercalate sep a.value

/-- `WordResult` (types.rs lines 1146-1161). -/
structure WordResult : Type where
  value : String
  changes : List EnvChange
  deriving DecidableEq, Repr

/-- `From<WordPartsResult> for WordResult` (types.rs lines 1195-1199):
joins the values with a single space. -/
def WordPartsResult.into_word_result (a : WordPartsResult) : WordResult :=
  { value := a.join " ", changes := a.changes }

/-- `From<WordPartsResult> for String` (types.rs lines 1140-1144). -/
def WordPartsResult.into_string (a : WordPartsResult) : String :=
  a.join " "

/-- `EvaluateWordTextError` (execute.rs lines 1096-1107).  The payloads
carry the rendered diagnostic text. -/
inductive EvaluateWordTextError : Type
  | InvalidPattern (pattern : String) (err : String)
  | NoFilesMatched (pattern : String)
  | FailedToGetHomeDirectory (msg : String)
  deriving DecidableEq, Repr

/-- The `Display` text of an `EvaluateWordTextError`, as produced by the
`thiserror` attributes (quoting of the pattern elided). -/
def EvaluateWordTextError.message : EvaluateWordTextError → String
  | .InvalidPattern pattern err =>
      "glob: no matches found " ++ pattern ++ ". " ++ err
  | .NoFilesMatched pattern => "glob: no matches found " ++ pattern
  | .FailedToGetHomeDirectory _ => "Failed to get home directory"

/-- `EvaluateWordTextError::into_exit_code` (execute.rs lines 1109-1114):
one line to stderr (elided) and exit code 1. -/
def EvaluateWordTextError.into_exit_code (_ : EvaluateWordTextError) :
    ExecuteResult :=
  ExecuteResult.from_exit_code 1

/-- The local `TextPart` of `evaluate_word_parts` (execute.rs lines
1159-1172): remembers whether a fragment came from a quoted context. -/
inductive TextPart : Type
  | Quoted (text : String)
  | Text (text : String)
  deriving DecidableEq, Repr

/-- `TextPart::as_str`. -/
def TextPart.as_str : TextPart → String
  | .Quoted text => text
  | .Text text => text

/-- `text_parts_to_string` (execute.rs lines 1174-1181). -/
def text_parts_to_string (parts : List TextPart) : String :=
  parts.foldl (fun acc p => acc ++ p.as_str) ""

/-- Rust `Path::join` on Unix strings: an absolute right side replaces the
left. -/
def path_join (base p : String) : String :=
  if path_is_absolute p then p else base ++ "/" ++ p

/-- Rust `Path::strip_prefix` modelled on strings (the executor applies it
to glob results, which live under the prefix). -/
def chars_strip_pre (pre l : List Char) : Option (List Char) :=
  match pre, l with
  | [], l => some l
  | _, [] => none
  | p :: ps, c :: cs => if p = c then chars_strip_pre ps cs else none

/-- The glob-escaping of quoted fragments in `evaluate_word_text`
(execute.rs lines 1199-1216): `?`, `*`, `[`, `]` from quoted text are
wrapped in brackets. -/
def escape_quoted_glob_chars (text : String) : String :=
  ⟨text.data.foldl
    (fun acc c =>
      if c = '?' ∨ c = '*' ∨ c = '[' ∨ c = ']' then
        acc ++ ['[', c, ']']
      else
        acc ++ [c])
    []⟩

/-- Whether an unquoted `Text` fragment carries a glob metacharacter
(execute.rs lines 1188-1195). -/
def text_parts_have_glob_chars (parts : List TextPart) : Bool :=
  parts.any
    (fun p =>
      match p with
      | .Quoted _ => false
      | .Text text =>
          text.data.any (fun c => c = '?' ∨ c = '*' ∨ c = '['))

/-- `evaluate_word_text` (execute.rs lines 1183-1268): glob expansion when
an unquoted fragment carries a metacharacter, plain concatenation
otherwise.  The `glob::glob_with` walk is `Env.glob`; the
`strip_prefix(cwd).unwrap()` panic on a result outside the cwd is kept. -/
def evaluate_word_text (env : Env) (st : ShellState)
    (text_parts : List TextPart) (is_quoted : Bool) :
    Except Interrupt (Except EvaluateWordTextError WordPartsResult) :=
  if ¬ is_quoted ∧ text_parts_have_glob_chars text_parts then
    let current_text :=
      text_parts.foldl
        (fun acc p =>
          match p with
          | TextPart.Quoted text => acc ++ escape_quoted_glob_chars text
          | TextPart.Text text => acc ++ text)
        ""
    let is_absolute := path_is_absolute current_text
    let pattern :=
      if is_absolute then current_text else st.cwd ++ "/" ++ current_text
    match env.glob pattern with
    | .ok paths =>
        if paths.isEmpty then
          .ok (.error (.NoFilesMatched pattern))
        else if is_absolute then
          .ok (.ok (WordPartsResult.new paths []))
        else
          match
            paths.mapM
              (fun p => chars_strip_pre (st.cwd ++ "/").data p.data)
          with
          | some stripped =>
              .ok
                (.ok
                  (WordPartsResult.new
                    (stripped.map (fun l => (⟨l⟩ : String))) []))
          | none =>
              .error (.panicked "strip_prefix failed on glob result")
    | .error err => .ok (.error (.InvalidPattern pattern err))
  else
    .ok (.ok (WordPartsResult.new [text_parts_to_string text_parts] []))

/-- The middle fields of a split expansion are each evaluated as their own
single-fragment word (the `for part in parts.drain(..)` loop of
execute.rs lines 1372-1379). -/
def evaluate_middle_text_parts (env : Env) (st : ShellState)
    (is_quoted : Bool) : List TextPart → WordPartsResult →
    Except Interrupt (Except EvaluateWordTextError WordPartsResult)
  | [], result => .ok (.ok result)
  | part :: rest, result =>
      match evaluate_word_text env st [part] is_quoted with
      | .error i => .error i
      | .ok (.error e) => .ok (.error e)
      | .ok (.ok r) => evaluate_middle_text_parts env st is_quoted rest
          (result.extend r)

/-- The split applied to every expanded variable/command-substitution text
(execute.rs lines 1351-1357): split on single spaces, trim each piece,
drop empties. -/
def split_expansion_text (text : String) : List TextPart :=
  (((list_split_char ' ' text.data).map chars_trim).filter
    (fun l => ¬ l.isEmpty)).map (fun l => TextPart.Text (⟨l⟩ : String))

/-- The trailing-newline strip and inner-newline flattening of
`evaluate_command_substitution` (execute.rs lines 1417-1428). -/
def trim_substitution_output (text : String) : String :=
  let d := text.data
  let stripped :=
    match d.reverse with
    | '\n' :: '\r' :: rest => rest.reverse
    | '\n' :: rest => rest.reverse
    | _ => d
  let crlf_replaced :=
    let rec go : List Char → List Char
      | '\r' :: '\n' :: rest => ' ' :: go rest
      | c :: rest => c :: go rest
      | [] => []
    go stripped
  ⟨crlf_replaced.map (fun c => if c = '\n' then ' ' else c)⟩

/-- The walk of `execute_sequence`'s skip loop down the right spine of a
boolean list (execute.rs lines 284-296): the first nested sequence whose
operator consumes `exit_code`, if any. -/
def boolean_next (exit_code : Int) : Sequence → Option Sequence
  | .BooleanList (.mk _ op next) =>
      if op.moves_next_for_exit_code exit_code then some next
      else boolean_next exit_code next
  | _ => none

/-- The command of every stage of a pipe sequence, in order (the
`while let` unfolding in execute.rs lines 759-782). -/
def pipeline_inner_commands : PipelineInner → List Command
  | .Command command => [command]
  | .PipeSequence (.mk current _ next) =>
      current :: pipeline_inner_commands next

/-- The state update the sequential driver performs after a non-async item
returns `Continue(code, changes, _)` (execute.rs lines 186-187): apply the
changes, then store the code in the variable `?` via `apply_env_var`. -/
def sequential_item_state_update (env : Env) (st : ShellState)
    (changes : List EnvChange) (exit_code : Int) : ShellState :=
  (st.apply_changes env changes).apply_env_var env "?" (toString exit_code)

/-- `AsyncCommandBehavior` (execute.rs lines 136-140). -/
inductive AsyncCommandBehavior : Type
  | Wait
  | Yield
  deriving DecidableEq, Repr

/-- The local `RedirectPipe` (execute.rs lines 363-367); the pipe payloads
are wiring only and carry no data observable by the claims. -/
inductive RedirectPipe : Type
  | Input
  | Output
  deriving DecidableEq, Repr

mutual

/-- `execute_sequential_list` (execute.rs lines 143-214): runs the items,
then under `Wait` behaviour joins the spawned handles into the final code
(`std::mem::take` empties the handle vector). -/
def execute_sequential_list (fm : FloatModel) (env : Env) :
    Nat → SequentialList → ShellState → AsyncCommandBehavior →
    Except Interrupt ExecuteResult
  | 0, _, _, _ => .error .outOfFuel
  | Nat.succ f, list, st, async_command_behavior =>
      match run_seq_items fm env f list.items st 0 [] [] with
      | .error i => .error i
      | .ok (final_exit_code, final_changes, async_handles, was_exit) =>
          let fc :=
            if async_command_behavior = AsyncCommandBehavior.Wait then
              wait_handles final_exit_code async_handles
            else final_exit_code
          let hs :=
            if async_command_behavior = AsyncCommandBehavior.Wait then
              ([] : List Int)
            else async_handles
          if was_exit then .ok (.Exit fc hs)
          else .ok (.Continue fc final_changes hs)
termination_by structural fuel => fuel

/-- The `for item in list.items` loop of `execute_sequential_list`
(execute.rs lines 156-195).  An async item is spawned against a clone of
the current state and contributes one handle whose value is the
`wait_handles` join of its own result (lines 162-168); a non-async `Exit`
breaks the loop; a non-async `Continue` applies its changes and stores its
code in `?` before the next item runs. -/
def run_seq_items (fm : FloatModel) (env : Env) :
    Nat → List SequentialListItem → ShellState → Int → List EnvChange →
    List Int → Except Interrupt (Int × List EnvChange × List Int × Bool)
  | 0, _, _, _, _, _ => .error .outOfFuel
  | Nat.succ _, [], _, final_exit_code, final_changes, async_handles =>
      .ok (final_exit_code, final_changes, async_handles, false)
  | Nat.succ f, item :: rest, st, final_exit_code, final_changes,
      async_handles =>
      if item.is_async then
        match execute_sequence fm env f item.sequence st with
        | .error i => .error i
        | .ok result =>
            let p := result.into_exit_code_and_handles
            run_seq_items fm env f rest st final_exit_code final_changes
              (async_handles ++ [wait_handles p.1 p.2])
      else
        match execute_sequence fm env f item.sequence st with
        | .error i => .error i
        | .ok (.Exit exit_code handles) =>
            .ok (exit_code, final_changes, async_handles ++ handles, true)
        | .ok (.Continue exit_code changes handles) =>
            run_seq_items fm env f rest
              (sequential_item_state_update env st changes exit_code)
              exit_code (final_changes ++ changes)
              (async_handles ++ handles)
termination_by structural fuel => fuel

/-- `execute_sequence` (execute.rs lines 238-322).  The boolean-list arm
stores `?` and applies the sub-changes before choosing the continuation;
an operator that skips walks the right spine via `boolean_next`. -/
def execute_sequence (fm : FloatModel) (env : Env) :
    Nat → Sequence → ShellState → Except Interrupt ExecuteResult
  | 0, _, _ => .error .outOfFuel
  | Nat.succ f, sequence, st =>
      match sequence with
      | .ShellVar var =>
          match evaluate_word fm env f var.value st with
          | .error i => .error i
          | .ok (.error err) => .ok err.into_exit_code
          | .ok (.ok value) =>
              .ok
                (.Continue 0 [EnvChange.SetShellVar var.name value.value]
                  [])
      | .BooleanList (.mk current opr next) =>
          match execute_sequence fm env f current st with
          | .error i => .error i
          | .ok (.Exit code handles) => .ok (.Exit code handles)
          | .ok (.Continue exit_code sub_changes async_handles) =>
              let st1 :=
                ((st.apply_env_var env "?"
                  (toString exit_code)).apply_changes env sub_changes)
              let next_choice :=
                if opr.moves_next_for_exit_code exit_code then some next
                else boolean_next exit_code next
              match next_choice with
              | some nxt =>
                  match execute_sequence fm env f nxt st1 with
                  | .error i => .error i
                  | .ok (.Exit code sub_handles) =>
                      .ok (.Exit code (async_handles ++ sub_handles))
                  | .ok (.Continue c2 ch2 h2) =>
                      .ok
                        (.Continue c2 (sub_changes ++ ch2)
                          (async_handles ++ h2))
              | none =>
                  .ok (.Continue exit_code sub_changes async_handles)
      | .Pipeline pipeline => execute_pipeline fm env f pipeline st
termination_by structural fuel => fuel

/-- `execute_pipeline` (execute.rs lines 324-344): negation inverts the
code of a `Continue` result (`0 ↔ 1`, non-zero `→ 0`) and leaves an
`Exit` result untouched. -/
def execute_pipeline (fm : FloatModel) (env : Env) :
    Nat → Pipeline → ShellState → Except Interrupt ExecuteResult
  | 0, _, _ => .error .outOfFuel
  | Nat.succ f, .mk negated inner, st =>
      match execute_pipeline_inner fm env f inner st with
      | .error i => .error i
      | .ok result =>
          if negated then
            match result with
            | .Exit code handles => .ok (.Exit code handles)
            | .Continue code changes handles =>
                .ok
                  (.Continue (if code = 0 then 1 else 0) changes handles)
          else .ok result
termination_by structural fuel => fuel

/-- `execute_pipeline_inner` (execute.rs lines 346-361). -/
def execute_pipeline_inner (fm : FloatModel) (env : Env) :
    Nat → PipelineInner → ShellState → Except Interrupt ExecuteResult
  | 0, _, _ => .error .outOfFuel
  | Nat.succ f, inner, st =>
      match inner with
      | .Command command => execute_command fm env f command st
      | .PipeSequence ps => execute_pipe_sequence fm env f ps st
termination_by structural fuel => fuel

/-- `execute_pipe_sequence` (execute.rs lines 749-800): every stage runs
against a clone of the same state; the final stage's code becomes the
result's code, earlier stages contribute only their handles, every change
set is dropped, and an `Exit` from the last stage is converted into
`Continue` with the same code.  The pipe wiring between the stages and the
final output pump carry no data observable here. -/
def execute_pipe_sequence (fm : FloatModel) (env : Env) :
    Nat → PipeSequence → ShellState → Except Interrupt ExecuteResult
  | 0, _, _ => .error .outOfFuel
  | Nat.succ f, ps, st =>
      match
        run_pipe_stages fm env f
          (pipeline_inner_commands (.PipeSequence ps)) st
      with
      | .error i => .error i
      | .ok results =>
          match results.getLast? with
          | none => .error (.panicked "results.pop() on an empty vec")
          | some last_result =>
              let all_handles :=
                results.dropLast.foldr
                  (fun r acc => r.into_handles ++ acc) []
              match last_result with
              | .Exit code handles =>
                  .ok (.Continue code [] (handles ++ all_handles))
              | .Continue code _ handles =>
                  .ok (.Continue code [] (handles ++ all_handles))
termination_by structural fuel => fuel

/-- The per-stage execution of `execute_pipe_sequence` (the `wait_tasks`
построение and `join_all`, execute.rs lines 756-786), deterministically in
stage order. -/
def run_pipe_stages (fm : FloatModel) (env : Env) :
    Nat → List Command → ShellState →
    Except Interrupt (List ExecuteResult)
  | 0, _, _ => .error .outOfFuel
  | Nat.succ _, [], _ => .ok []
  | Nat.succ f, c :: rest, st =>
      match execute_command fm env f c st with
      | .error i => .error i
      | .ok r =>
          match run_pipe_stages fm env f rest st with
          | .error i => .error i
          | .ok rs => .ok (r :: rs)
termination_by structural fuel => fuel

/-- `execute_command` (execute.rs lines 485-550): resolve the redirect (if
any), validate which std slot it replaces, then run the inner command.
The snapshot's match on `CommandInner` has no `For` arm, modelled as a
panic. -/
def execute_command (fm : FloatModel) (env : Env) :
    Nat → Command → ShellState → Except Interrupt ExecuteResult
  | 0, _, _ => .error .outOfFuel
  | Nat.succ f, cmd, st =>
      let exec_inner := fun (_ : Unit) =>
        match cmd.inner with
        | .Simple command => execute_simple_command fm env f command st
        | .Subshell list => execute_subshell fm env f list st
        | .If if_clause => execute_if_clause fm env f if_clause st
        | .ArithmeticExpression arithmetic =>
            match execute_arithmetic_expression fm env f arithmetic st with
            | .error i => .error i
            | .ok (.ok result) => .ok (.Continue 0 result.changes [])
            | .ok (.error _) => .ok (.Continue 2 [] [])
        | .For _ =>
            .error
              (.panicked
                "CommandInner::For has no arm in execute_command")
      match cmd.redirect with
      | none => exec_inner ()
      | some redirect =>
          match resolve_redirect_pipe fm env f redirect st with
          | .error i => .error i
          | .ok (.error result) => .ok result
          | .ok (.ok pipe) =>
              match pipe, redirect.maybe_fd with
              | .Input, some _ => .ok (.from_exit_code 1)
              | .Input, none => exec_inner ()
              | .Output, some (.Fd 2) => exec_inner ()
              | .Output, some (.Fd 1) => exec_inner ()
              | .Output, none => exec_inner ()
              | .Output, some .StdoutStderr => exec_inner ()
              | .Output, some (.Fd _) => .ok (.from_exit_code 1)
termination_by structural fuel => fuel

/-- `resolve_redirect_pipe` (execute.rs lines 369-399). -/
def resolve_redirect_pipe (fm : FloatModel) (env : Env) :
    Nat → Redirect → ShellState →
    Except Interrupt (Except ExecuteResult RedirectPipe)
  | 0, _, _ => .error .outOfFuel
  | Nat.succ f, .mk _ op io_file, st =>
      match io_file with
      | .Word word => resolve_redirect_word_pipe fm env f word op st
      | .Fd fd =>
          match op with
          | .Input .Redirect => .ok (.error (.from_exit_code 1))
          | .Output _ =>
              match fd with
              | 1 => .ok (.ok .Output)
              | 2 => .ok (.ok .Output)
              | _ => .ok (.error (.from_exit_code 1))
termination_by structural fuel => fuel

/-- `resolve_redirect_word_pipe` (execute.rs lines 401-483): the target
word must expand to exactly one field; `/dev/null` maps to the null sink;
otherwise the file is opened relative to the cwd (`Env.open_read` /
`Env.open_write` abstract the `OpenOptions` calls). -/
def resolve_redirect_word_pipe (fm : FloatModel) (env : Env) :
    Nat → Word → RedirectOp → ShellState →
    Except Interrupt (Except ExecuteResult RedirectPipe)
  | 0, _, _, _ => .error .outOfFuel
  | Nat.succ f, word, redirect_op, st =>
      match evaluate_word_parts fm env f word.into_parts st with
      | .error i => .error i
      | .ok (.error err) => .ok (.error err.into_exit_code)
      | .ok (.ok words) =>
          match words.value with
          | [] => .ok (.error (.from_exit_code 1))
          | output_path :: rest =>
              if ¬ rest.isEmpty then .ok (.error (.from_exit_code 1))
              else
                match redirect_op with
                | .Input .Redirect =>
                    if env.open_read (path_join st.cwd output_path) then
                      .ok (.ok .Input)
                    else .ok (.error (.from_exit_code 1))
                | .Output _ =>
                    if output_path = "/dev/null" then .ok (.ok .Output)
                    else if
                        env.open_write (path_join st.cwd output_path) then
                      .ok (.ok .Output)
                    else .ok (.error (.from_exit_code 1))
termination_by structural fuel => fuel

/-- `execute_subshell` (execute.rs lines 802-830): the inner list runs with
`Yield` behaviour; an `Exit` becomes a `Continue` with the same code and
the env changes are dropped in both arms. -/
def execute_subshell (fm : FloatModel) (env : Env) :
    Nat → SequentialList → ShellState → Except Interrupt ExecuteResult
  | 0, _, _ => .error .outOfFuel
  | Nat.succ f, list, st =>
      match
        execute_sequential_list fm env f list st AsyncCommandBehavior.Yield
      with
      | .error i => .error i
      | .ok (.Exit code handles) => .ok (.Continue code [] handles)
      | .ok (.Continue code _ handles) => .ok (.Continue code [] handles)
termination_by structural fuel => fuel

/-- `execute_if_clause` (execute.rs lines 832-889). -/
def execute_if_clause (fm : FloatModel) (env : Env) :
    Nat → IfClause → ShellState → Except Interrupt ExecuteResult
  | 0, _, _ => .error .outOfFuel
  | Nat.succ f, .mk condition then_body else_part, st =>
      match evaluate_condition fm env f condition st with
      | .error i => .error i
      | .ok (.error err) => .ok err.into_exit_code
      | .ok (.ok true) =>
          execute_sequential_list fm env f then_body st
            AsyncCommandBehavior.Yield
      | .ok (.ok false) =>
          match else_part with
          | some (.Elif elif_clause) =>
              execute_if_clause fm env f elif_clause st
          | some (.Else else_body) =>
              execute_sequential_list fm env f else_body st
                AsyncCommandBehavior.Yield
          | none => .ok (.Continue 0 [] [])
termination_by structural fuel => fuel

/-- `evaluate_condition` (execute.rs lines 891-958): binary comparisons go
numeric when both sides parse as `i64` and fall back to the string order
of the expanded words; every unary operator is `todo!()`. -/
def evaluate_condition (fm : FloatModel) (env : Env) :
    Nat → Condition → ShellState →
    Except Interrupt (Except EvaluateWordTextError Bool)
  | 0, _, _ => .error .outOfFuel
  | Nat.succ f, .mk condition_inner, st =>
      match condition_inner with
      | .Binary left op right =>
          match evaluate_word fm env f left st with
          | .error i => .error i
          | .ok (.error e) => .ok (.error e)
          | .ok (.ok l) =>
              match evaluate_word fm env f right st with
              | .error i => .error i
              | .ok (.error e) => .ok (.error e)
              | .ok (.ok r) =>
                  match parse_i64 l.value, parse_i64 r.value with
                  | some li, some ri =>
                      .ok
                        (.ok
                          (match op with
                          | .Equal => li = ri
                          | .NotEqual => li ≠ ri
                          | .LessThan => li < ri
                          | .LessThanOrEqual => li ≤ ri
                          | .GreaterThan => li > ri
                          | .GreaterThanOrEqual => li ≥ ri))
                  | _, _ =>
                      .ok
                        (.ok
                          (match op with
                          | .Equal => l.value = r.value
                          | .NotEqual => l.value ≠ r.value
                          | .LessThan => l.value < r.value
                          | .LessThanOrEqual => l.value ≤ r.value
                          | .GreaterThan => l.value > r.value
                          | .GreaterThanOrEqual => l.value ≥ r.value))
      | .Unary _ right =>
          match evaluate_word fm env f right st with
          | .error i => .error i
          | .ok (.error e) => .ok (.error e)
          | .ok (.ok _) =>
              .error (.panicked "todo: unary conditions are unimplemented")
termination_by structural fuel => fuel

/-- `execute_simple_command` (execute.rs lines 960-996): expand the args,
evaluate the per-command env vars against a progressively updated clone of
the state, dispatch, then append the expansion's changes after the
command's own. -/
def execute_simple_command (fm : FloatModel) (env : Env) :
    Nat → SimpleCommand → ShellState → Except Interrupt ExecuteResult
  | 0, _, _ => .error .outOfFuel
  | Nat.succ f, command, st =>
      match evaluate_args fm env f command.args st with
      | .error i => .error i
      | .ok (.error err) => .ok err.into_exit_code
      | .ok (.ok args_res) =>
          match apply_command_env_vars fm env f command.env_vars st with
          | .error i => .error i
          | .ok (.error result) => .ok result
          | .ok (.ok state1) =>
              match
                execute_command_args fm env f args_res.value state1
              with
              | .error i => .error i
              | .ok (.Exit code handles) => .ok (.Exit code handles)
              | .ok (.Continue code env_changes handles) =>
                  .ok
                    (.Continue code (env_changes ++ args_res.changes)
                      handles)
termination_by structural fuel => fuel

/-- The `for env_var in command.env_vars` loop of
`execute_simple_command` (execute.rs lines 976-986): each value expands
against the state updated by the previous ones; an expansion error stops
the command with that error's exit result. -/
def apply_command_env_vars (fm : FloatModel) (env : Env) :
    Nat → List EnvVar → ShellState →
    Except Interrupt (Except ExecuteResult ShellState)
  | 0, _, _ => .error .outOfFuel
  | Nat.succ _, [], st => .ok (.ok st)
  | Nat.succ f, env_var :: rest, st =>
      match evaluate_word fm env f env_var.value st with
      | .error i => .error i
      | .ok (.error err) => .ok (.error err.into_exit_code)
      | .ok (.ok value) =>
          apply_command_env_vars fm env f rest
            (st.apply_env_var env env_var.name value.value)
termination_by structural fuel => fuel

/-- `execute_command_args` (execute.rs lines 998-1062): one round of alias
substitution on the first token, then the cancellation check, the
history-expansion (`!`) rejection, and the dispatch (custom command or
PATH resolution, both behind `Env.dispatch`). -/
def execute_command_args (_fm : FloatModel) (env : Env) :
    Nat → List String → ShellState → Except Interrupt ExecuteResult
  | 0, _, _ => .error .outOfFuel
  | Nat.succ _, args, st =>
      let finish := fun (command_name : String) (rest : List String) =>
        if st.token_cancelled then .ok ExecuteResult.for_cancellation
        else
          match command_name.data with
          | '!' :: _ => .ok (ExecuteResult.from_exit_code 1)
          | _ => env.dispatch command_name rest st
      match args with
      | [] => finish "" []
      | a0 :: rest =>
          let args2 :=
            match alist_get st.alias_map a0 with
            | some value => value ++ rest
            | none => a0 :: rest
          match args2 with
          | [] => .error (.panicked "args.remove(0) on an empty vec")
          | name :: rest2 => finish name rest2

/-- `evaluate_args` (execute.rs lines 1064-1082). -/
def evaluate_args (fm : FloatModel) (env : Env) :
    Nat → List Word → ShellState →
    Except Interrupt (Except EvaluateWordTextError WordPartsResult)
  | 0, _, _ => .error .outOfFuel
  | Nat.succ _, [], _ => .ok (.ok (WordPartsResult.new [] []))
  | Nat.succ f, arg :: rest, st =>
      match evaluate_word_parts fm env f arg.into_parts st with
      | .error i => .error i
      | .ok (.error e) => .ok (.error e)
      | .ok (.ok parts) =>
          match evaluate_args fm env f rest st with
          | .error i => .error i
          | .ok (.error e) => .ok (.error e)
          | .ok (.ok restRes) => .ok (.ok (parts.extend restRes))
termination_by structural fuel => fuel

/-- `evaluate_word` (execute.rs lines 1084-1094). -/
def evaluate_word (fm : FloatModel) (env : Env) :
    Nat → Word → ShellState →
    Except Interrupt (Except EvaluateWordTextError WordResult)
  | 0, _, _ => .error .outOfFuel
  | Nat.succ f, word, st =>
      match evaluate_word_parts fm env f word.into_parts st with
      | .error i => .error i
      | .ok (.error e) => .ok (.error e)
      | .ok (.ok res) => .ok (.ok res.into_word_result)
termination_by structural fuel => fuel

/-- `evaluate_word_parts` (execute.rs lines 1153-1397): the outer entry
starts the unquoted walk. -/
def evaluate_word_parts (fm : FloatModel) (env : Env) :
    Nat → List WordPart → ShellState →
    Except Interrupt (Except EvaluateWordTextError WordPartsResult)
  | 0, _, _ => .error .outOfFuel
  | Nat.succ f, parts, st =>
      evaluate_word_parts_inner fm env f parts false st
termination_by structural fuel => fuel

/-- `evaluate_word_parts_inner` (execute.rs lines 1270-1394). -/
def evaluate_word_parts_inner (fm : FloatModel) (env : Env) :
    Nat → List WordPart → Bool → ShellState →
    Except Interrupt (Except EvaluateWordTextError WordPartsResult)
  | 0, _, _, _ => .error .outOfFuel
  | Nat.succ f, parts, is_quoted, st =>
      word_parts_loop fm env f parts is_quoted st
        (WordPartsResult.new [] []) [] []
termination_by structural fuel => fuel

/-- The `for part in parts` loop of `evaluate_word_parts_inner`
(execute.rs lines 1283-1391), with the accumulated output `result`, the
pending fragment list `current_text` and the local `changes` vector.
`changes` collects the change sets of quoted and arithmetic parts exactly
as the source does — and, exactly as the source does, it is dropped when
the loop returns (the function yields only `result`). -/
def word_parts_loop (fm : FloatModel) (env : Env) :
    Nat → List WordPart → Bool → ShellState → WordPartsResult →
    List TextPart → List EnvChange →
    Except Interrupt (Except EvaluateWordTextError WordPartsResult)
  | 0, _, _, _, _, _, _ => .error .outOfFuel
  | Nat.succ _, [], is_quoted, st, result, current_text, _ =>
      if current_text.isEmpty then .ok (.ok result)
      else
        match evaluate_word_text env st current_text is_quoted with
        | .error i => .error i
        | .ok (.error e) => .ok (.error e)
        | .ok (.ok r) => .ok (.ok (result.extend r))
  | Nat.succ f, part :: rest, is_quoted, st, result, current_text,
      changes =>
      let split_then_continue :=
        fun (text? : Option String) (result : WordPartsResult)
            (current_text : List TextPart) (changes : List EnvChange) =>
          match text? with
          | none =>
              word_parts_loop fm env f rest is_quoted st result
                current_text changes
          | some text =>
              match split_expansion_text text with
              | [] =>
                  word_parts_loop fm env f rest is_quoted st result
                    current_text changes
              | first_part :: split_rest =>
                  let current_text1 := current_text ++ [first_part]
                  match split_rest with
                  | [] =>
                      word_parts_loop fm env f rest is_quoted st result
                        current_text1 changes
                  | _ :: _ =>
                      match
                        evaluate_word_text env st current_text1 is_quoted
                      with
                      | .error i => .error i
                      | .ok (.error e) => .ok (.error e)
                      | .ok (.ok r1) =>
                          match
                            evaluate_middle_text_parts env st is_quoted
                              split_rest.dropLast (result.extend r1)
                          with
                          | .error i => .error i
                          | .ok (.error e) => .ok (.error e)
                          | .ok (.ok result2) =>
                              match split_rest.getLast? with
                              | some last_part =>
                                  word_parts_loop fm env f rest is_quoted
                                    st result2 [last_part] changes
                              | none =>
                                  .error
                                    (.panicked
                                      "getLast? of a non-empty list")
      match part with
      | .Text text =>
          word_parts_loop fm env f rest is_quoted st result
            (current_text ++ [TextPart.Text text]) changes
      | .Variable name modifier =>
          let value := st.get_var name
          match modifier with
          | some m =>
              match VariableModifier.apply fm env f m value st with
              | .error i => .error i
              | .ok (.error msg) =>
                  .ok (.error (.FailedToGetHomeDirectory msg))
              | .ok (.ok v) => split_then_continue v result current_text
                  changes
          | none => split_then_continue value result current_text changes
      | .Command list =>
          match
            evaluate_command_substitution fm env f list
              st.with_child_token
          with
          | .error i => .error i
          | .ok text => split_then_continue (some text) result
              current_text changes
      | .Quoted qparts =>
          match evaluate_word_parts_inner fm env f qparts true st with
          | .error i => .error i
          | .ok (.error e) => .ok (.error e)
          | .ok (.ok res) =>
              word_parts_loop fm env f rest is_quoted st result
                (current_text ++ [TextPart.Quoted res.into_string])
                (changes ++ res.changes)
      | .Tilde tp =>
          if tp.only_tilde then
            match env.home_dir with
            | some home_str =>
                word_parts_loop fm env f rest is_quoted st result
                  (current_text ++ [TextPart.Text home_str]) changes
            | none =>
                .ok
                  (.error
                    (.FailedToGetHomeDirectory
                      "Failed to get home directory"))
          else
            .error
              (.panicked
                "todo: tilde expansion with user name is not supported")
      | .Arithmetic arithmetic =>
          match execute_arithmetic_expression fm env f arithmetic st with
          | .error i => .error i
          | .ok (.error msg) =>
              .ok (.error (.FailedToGetHomeDirectory msg))
          | .ok (.ok arithmetic_result) =>
              word_parts_loop fm env f rest is_quoted st result
                (current_text ++ [TextPart.Text arithmetic_result.render])
                (changes ++ arithmetic_result.changes)
      | .ExitStatus =>
          word_parts_loop fm env f rest is_quoted st result
            (current_text
              ++ [TextPart.Text (toString st.last_command_exit_code)])
            changes
termination_by structural fuel => fuel

/-- `evaluate_command_substitution` (execute.rs lines 1399-1428): run the
list to completion against the (cloned, child-token) state, discard its
result, and return the captured stdout with one trailing newline stripped
and inner newlines flattened to spaces. -/
def evaluate_command_substitution (fm : FloatModel) (env : Env) :
    Nat → SequentialList → ShellState → Except Interrupt String
  | 0, _, _ => .error .outOfFuel
  | Nat.succ f, list, st =>
      match
        execute_sequential_list fm env f list st AsyncCommandBehavior.Wait
      with
      | .error i => .error i
      | .ok _ => .ok (trim_substitution_output (env.output list st))
termination_by structural fuel => fuel

/-- `VariableModifier::apply` (execute.rs lines 1122-1151).  Only
`DefaultValue` is implemented; the `Substring` implementation is
commented out in the source, so `Substring`, `AssignDefault` and
`AlternateValue` all fall to the wildcard arm and fail with the
`Unsupported variable modifier` report. -/
def VariableModifier.apply (fm : FloatModel) (env : Env) :
    Nat → VariableModifier → Option String → ShellState →
    Except Interrupt (Except String (Option String))
  | 0, _, _, _ => .error .outOfFuel
  | Nat.succ f, modifier, var0, st =>
      match modifier with
      | .DefaultValue default_value =>
          match var0 with
          | some v => .ok (.ok (some v))
          | none =>
              match evaluate_word fm env f default_value st with
              | .error i => .error i
              | .ok (.error e) => .ok (.error e.message)
              | .ok (.ok wr) => .ok (.ok (some wr.value))
      | _ => .ok (.error "Unsupported variable modifier")
termination_by structural fuel => fuel

end

/-! ### The ExitOnError-aware driver, modelled from the spec

The repository's `set` builtin (crates/shell/src/commands/set.rs) emits
`EnvChange::SetShellOptions(ShellOptions::ExitOnError, …)`, but the
snapshot of deno_task_shell under verification has no `SetShellOptions`
variant in `EnvChange` (types.rs lines 289-303), no `options` field in
`ShellState`, and no ExitOnError handling in `execute_sequential_list`
(execute.rs lines 143-214): the option-aware driver of the repository is
missing from the sources.  The definitions below model that missing part
from the spec (§3.2 `options`, §3.3 `SetShellOptions`, §4.6 step 3),
layered over the faithful state model above. -/

/-- Modelled from the spec: `ShellOptions` (§3.2, and the declaration
imported by crates/shell/src/commands/set.rs). -/
inductive ShellOptions : Type
  | ExitOnError
  | PrintTrace
  deriving DecidableEq, Repr

/-- Modelled from the spec: the change-set entries of §3.3 including
`SetShellOptions(option, bool)`, which the snapshot's `EnvChange`
lacks. -/
inductive EnvChangeO : Type
  | base (change : EnvChange)
  | SetShellOptions (option : ShellOptions) (value : Bool)
  deriving DecidableEq, Repr

/-- Modelled from the spec: `ShellState` extended with the `options` set
of §3.2. -/
structure ShellStateO : Type where
  base : ShellState
  options : List ShellOptions
  deriving DecidableEq, Repr

/-- Modelled from the spec: applying one extended change —
`SetShellOptions` toggles membership in the option set, every other
change acts on the base state as in types.rs. -/
def ShellStateO.apply_change_o (st : ShellStateO) (env : Env) :
    EnvChangeO → ShellStateO
  | .base change => { st with base := st.base.apply_change env change }
  | .SetShellOptions opt true =>
      { st with
        options :=
          if opt ∈ st.options then st.options else st.options ++ [opt] }
  | .SetShellOptions opt false =>
      { st with options := st.options.filter (fun o => o ≠ opt) }

/-- Modelled from the spec: applying an extended change list (clearing
`last_command_cd` first, as `apply_changes` does). -/
def ShellStateO.apply_changes_o (st : ShellStateO) (env : Env)
    (changes : List EnvChangeO) : ShellStateO :=
  changes.foldl (fun s c => s.apply_change_o env c)
    { st with base := { st.base with last_command_cd := false } }

/-- Modelled from the spec: `ExecuteResult` whose change lists may carry
`SetShellOptions`. -/
inductive ExecuteResultO : Type
  | Exit (code : Int) (handles : List Int)
  | Continue (code : Int) (changes : List EnvChangeO) (handles : List Int)
  deriving DecidableEq, Repr

/-- `into_exit_code_and_handles` on the extended result. -/
def ExecuteResultO.into_exit_code_and_handles :
    ExecuteResultO → Int × List Int
  | .Exit code handles => (code, handles)
  | .Continue code _ handles => (code, handles)

/-- The extended per-item state update: apply the changes, then store the
code in `?`. -/
def sequential_item_state_update_o (env : Env) (st : ShellStateO)
    (changes : List EnvChangeO) (exit_code : Int) : ShellStateO :=
  let st1 := st.apply_changes_o env changes
  { st1 with
    base := st1.base.apply_env_var env "?" (toString exit_code) }

/-- Modelled from the spec: the item loop of the ExitOnError-aware
sequential driver.  It mirrors `execute_sequential_list`'s loop
(execute.rs lines 156-195) over an abstract item evaluation `itemEval`
(covering the missing option-threading `execute_sequence`), plus §4.6
step 3: when `ExitOnError` is set, a non-async item completing with a
non-zero `Continue` code is converted into an `Exit`, ending the loop.
The option is read from the state the item ran against. -/
def run_seq_items_o (env : Env)
    (itemEval : Sequence → ShellStateO → ExecuteResultO) :
    List SequentialListItem → ShellStateO → Int → List EnvChangeO →
    List Int → Int × List EnvChangeO × List Int × Bool
  | [], _, final_exit_code, final_changes, async_handles =>
      (final_exit_code, final_changes, async_handles, false)
  | item :: rest, st, final_exit_code, final_changes, async_handles =>
      if item.is_async then
        let p := (itemEval item.sequence st).into_exit_code_and_handles
        run_seq_items_o env itemEval rest st final_exit_code final_changes
          (async_handles ++ [wait_handles p.1 p.2])
      else
        match itemEval item.sequence st with
        | .Exit exit_code handles =>
            (exit_code, final_changes, async_handles ++ handles, true)
        | .Continue exit_code changes handles =>
            if exit_code ≠ 0 ∧ ShellOptions.ExitOnError ∈ st.options then
              (exit_code, final_changes, async_handles ++ handles, true)
            else
              run_seq_items_o env itemEval rest
                (sequential_item_state_update_o env st changes exit_code)
                exit_code (final_changes ++ changes)
                (async_handles ++ handles)

/-- Modelled from the spec: the ExitOnError-aware
`execute_sequential_list` over an abstract item evaluation; the wrapper
around the loop is that of execute.rs lines 196-211. -/
def execute_sequential_list_o (env : Env)
    (itemEval : Sequence → ShellStateO → ExecuteResultO)
    (list : SequentialList) (st : ShellStateO)
    (async_command_behavior : AsyncCommandBehavior) : ExecuteResultO :=
  match run_seq_items_o env itemEval list.items st 0 [] [] with
  | (final_exit_code, final_changes, async_handles, was_exit) =>
      let fc :=
        if async_command_behavior = AsyncCommandBehavior.Wait then
          wait_handles final_exit_code async_handles
        else final_exit_code
      let hs :=
        if async_command_behavior = AsyncCommandBehavior.Wait then
          ([] : List Int)
        else async_handles
      if was_exit then ExecuteResultO.Exit fc hs
      else ExecuteResultO.Continue fc final_changes hs

/-! ### Fixtures for concrete evaluations -/

/-- An environment whose boundary functions are all trivial. -/
def env0 : Env where
  dispatch := fun _ _ _ => .ok (.Continue 0 [] [])
  glob := fun _ => .ok []
  canonicalize := fun _ => none
  home_dir := none
  output := fun _ _ => ""
  open_read := fun _ => true
  open_write := fun _ => true

/-- An environment with a small table of test commands behind the
dispatcher: `five` exits 5, `retcode` exits with its first argument,
`exitzero` / `exitfive` return `Exit` results (as the `exit` builtin
does), `setx` exports a variable. -/
def envX : Env where
  dispatch := fun name args _ =>
    if name = "five" then .ok (.Continue 5 [] [])
    else if name = "retcode" then
      .ok
        (.Continue
          (match args with
          | a :: _ => (parse_i64 a).getD 99
          | [] => 98)
          [] [])
    else if name = "exitzero" then .ok (.Exit 0 [])
    else if name = "exitfive" then .ok (.Exit 5 [])
    else if name = "setx" then
      .ok (.Continue 0 [.SetEnvVar "X" "1"] [])
    else .ok (.Continue 0 [] [])
  glob := fun _ => .ok []
  canonicalize := fun _ => none
  home_dir := none
  output := fun _ _ => ""
  open_read := fun _ => true
  open_write := fun _ => true

/-- An initial shell state. -/
def st0 : ShellState where
  env_vars := []
  shell_vars := []
  cwd := "/work"
  alias_map := []
  token_cancelled := false
  last_command_cd := false
  last_command_exit_code := 0

/-- A pipeline-wrapped simple command with the given single-token
arguments, as the parser builds for `name arg …`. -/
def simple_cmd_seq (tokens : List String) : Sequence :=
  Sequence.Pipeline
    (Pipeline.mk false
      (PipelineInner.Command
        (Command.mk
          (CommandInner.Simple
            (SimpleCommand.mk []
              (tokens.map (fun t => Word.mk [WordPart.Text t])))) none)))

/-- A redirect-free command invoking `name` with no arguments. -/
def cmdW (name : String) : Command :=
  Command.mk
    (CommandInner.Simple (SimpleCommand.mk [] [Word.mk [WordPart.Text name]]))
    none

/-- How `execute_sequence`'s boolean-list arm folds the continuation's
result into the first sequence's accumulated changes and handles
(execute.rs lines 298-311). -/
def boolean_merge (ch : List EnvChange) (hs : List Int)
    (r : Except Interrupt ExecuteResult) : Except Interrupt ExecuteResult :=
  match r with
  | .error i => .error i
  | .ok (.Exit code sub_handles) => .ok (.Exit code (hs ++ sub_handles))
  | .ok (.Continue c2 ch2 h2) =>
      .ok (.Continue c2 (ch ++ ch2) (hs ++ h2))

/-! ### Helper lemmas -/

/-- `apply_env_var` never touches `last_command_exit_code`. -/
theorem apply_env_var_last_command_exit_code (st : ShellState) (env : Env)
    (n v : String) :
    (st.apply_env_var env n v).last_command_exit_code
      = st.last_command_exit_code := by
  unfold ShellState.apply_env_var
  split
  · split
    · cases env.canonicalize v <;> simp [ShellState.set_cwd]
    · rfl
  · rfl

/-- `apply_change` never touches `last_command_exit_code`. -/
theorem apply_change_last_command_exit_code (st : ShellState) (env : Env)
    (change : EnvChange) :
    (st.apply_change env change).last_command_exit_code
      = st.last_command_exit_code := by
  cases change with
  | SetEnvVar n v =>
      simp only [ShellState.apply_change]
      exact apply_env_var_last_command_exit_code st env n v
  | SetShellVar n v =>
      simp only [ShellState.apply_change]
      split
      · exact apply_env_var_last_command_exit_code st env n v
      · rfl
  | UnsetVar n => rfl
  | Cd d => simp [ShellState.apply_change, ShellState.set_cwd]
  | AliasCommand a c => rfl
  | UnAliasCommand a => rfl

/-- `apply_changes` never touches `last_command_exit_code`. -/
theorem apply_changes_last_command_exit_code (st : ShellState) (env : Env)
    (changes : List EnvChange) :
    (st.apply_changes env changes).last_command_exit_code
      = st.last_command_exit_code := by
  unfold ShellState.apply_changes
  have :
      ∀ (l : List EnvChange) (s : ShellState),
        (l.foldl (fun s c => s.apply_change env c) s).last_command_exit_code
          = s.last_command_exit_code := by
    intro l
    induction l with
    | nil => intro s; rfl
    | cons c rest ih =>
        intro s
        rw [List.foldl_cons, ih, apply_change_last_command_exit_code]
  rw [this]

/-- Inserting a key makes it found. -/
theorem alist_get_put_self {α : Type} (l : List (String × α)) (n : String)
    (v : α) : alist_get (alist_put l n v) n = some v := by
  induction l with
  | nil => simp [alist_put, alist_get]
  | cons p rest ih =>
      cases p with
      | mk k w =>
          by_cases h : k = n <;> simp [alist_put, alist_get, h, ih]

/-- After `apply_env_var` with the name `?`, `get_var "?"` returns the
stored value. -/
theorem get_var_q_after_apply_env_var (st : ShellState) (env : Env)
    (v : String) : (st.apply_env_var env "?" v).get_var "?" = some v := by
  unfold ShellState.apply_env_var
  rw [if_neg (by decide : ¬("?" : String) = "PWD")]
  unfold ShellState.get_var
  simp [alist_get_put_self]

/-- Every successful `evaluate_word_text` carries an empty change set. -/
theorem evaluate_word_text_ok_changes (env : Env) (st : ShellState)
    (tp : List TextPart) (q : Bool) (r : WordPartsResult)
    (h : evaluate_word_text env st tp q = .ok (.ok r)) : r.changes = [] := by
  unfold evaluate_word_text at h
  dsimp only at h
  split at h
  · split at h
    · split at h
      · exact absurd h (by simp)
      · split at h
        · injection h with h1
          injection h1 with h2
          subst h2
          rfl
        · split at h
          · injection h with h1
            injection h1 with h2
            subst h2
            rfl
          · exact absurd h (by simp)
    · exact absurd h (by simp)
  · injection h with h1
    injection h1 with h2
    subst h2
    rfl

/-- `evaluate_middle_text_parts` preserves change-set emptiness. -/
theorem evaluate_middle_text_parts_ok_changes (env : Env)
    (st : ShellState) (q : Bool) :
    ∀ (l : List TextPart) (acc out : WordPartsResult),
      acc.changes = [] →
      evaluate_middle_text_parts env st q l acc = .ok (.ok out) →
      out.changes = [] := by
  intro l
  induction l with
  | nil =>
      intro acc out hacc h
      injection h with h1
      injection h1 with h2
      subst h2
      exact hacc
  | cons part rest ih =>
      intro acc out hacc h
      unfold evaluate_middle_text_parts at h
      split at h
      · exact absurd h (by simp)
      · exact absurd h (by simp)
      · rename_i r hr
        refine ih _ _ ?_ h
        have hr0 := evaluate_word_text_ok_changes env st [part] q r hr
        simp [WordPartsResult.extend, hacc, hr0]

/-! ### The claims -/

/-- C1: the claim says the arithmetic binary `l && r` yields integer 1 iff
both `l` and `r` are non-zero.  The code disagrees: at `l = 1, r = 0`
(where the claim demands 0) `apply_binary_op` yields 1, evaluating
`$((1 && 0))` yields 1, and in fact the `LogicalAnd` arm computes exactly
the same function as the `LogicalOr` arm (1 iff at least one operand is
non-zero). -/
theorem c1_logical_and_failing_input :
    (@apply_binary_op fmUnit (ArithmeticResult.new (.Integer 1))
        .LogicalAnd (ArithmeticResult.new (.Integer 0))
      = .ok (ArithmeticResult.new (.Integer 1)))
    ∧ (evaluate_arithmetic_part fmUnit env0 5
        (.BinaryArithmeticExpr (.Number "1") .LogicalAnd (.Number "0")) st0
      = .ok (.ok (ArithmeticResult.new (.Integer 1), st0)))
    ∧ ∀ (fm : FloatModel) (lhs rhs : ArithmeticResult fm),
        apply_binary_op lhs .LogicalAnd rhs
          = apply_binary_op lhs .LogicalOr rhs := by
  refine ⟨rfl, rfl, ?_⟩
  intro fm lhs rhs
  cases hl : lhs.is_zero <;> cases hr : rhs.is_zero <;>
    simp [apply_binary_op, hl, hr]

/-- C2: the claim says `${V:b:l}` substring expansion returns the
corresponding substring (negative indices from the end, clamping), with
`${FOO:1:3}` on `FOO=12345` expanding to `234`.  In the code the
`Substring` arm of `VariableModifier::apply` is commented out, so every
substring modifier falls to the wildcard arm and fails with the
`Unsupported variable modifier` report: on the claim's own input the
expansion errors out instead of producing `234`. -/
theorem c2_substring_modifier_unsupported :
    (evaluate_word_parts fmUnit env0 8
        [.Variable "FOO"
          (some (.Substring (.mk [.Text "1"]) (some (.mk [.Text "3"]))))]
        { st0 with shell_vars := [("FOO", "12345")] }
      = .ok
          (.error
            (.FailedToGetHomeDirectory "Unsupported variable modifier")))
    ∧ ∀ (fm : FloatModel) (env : Env) (f : Nat) (b : Word)
        (l : Option Word) (v : Option String) (st : ShellState),
        VariableModifier.apply fm env (f + 1) (.Substring b l) v st
          = .ok (.error "Unsupported variable modifier") :=
  ⟨rfl, fun _ _ _ _ _ _ _ => rfl⟩

/-- C4: the claim says a compound assignment `name op= value` computes
`prior op value` (prior value on the left).  The code puts the freshly
evaluated value on the left instead: with `x` holding `10`,
`$((x -= 3))` evaluates `3 - 10 = -7` (the claim demands `7`) and
`$((x /= 2))` evaluates `2 / 10 = 0` (the claim demands `5`); in both
cases the reversed result is also stored and emitted as
`SetShellVar`. -/
theorem c4_compound_assignment_operand_order :
    (evaluate_arithmetic_part fmUnit env0 5
        (.VariableAssignment "x" .SubtractAssign (.Number "3"))
        { st0 with shell_vars := [("x", "10")] }
      = .ok
          (.ok
            ({ value := .Integer (-7),
               changes := [EnvChange.SetShellVar "x" "-7"] },
             { st0 with shell_vars := [], env_vars := [("x", "-7")] })))
    ∧ (evaluate_arithmetic_part fmUnit env0 5
        (.VariableAssignment "x" .DivideAssign (.Number "2"))
        { st0 with shell_vars := [("x", "10")] }
      = .ok
          (.ok
            ({ value := .Integer 0,
               changes := [EnvChange.SetShellVar "x" "0"] },
             { st0 with shell_vars := [], env_vars := [("x", "0")] }))) :=
  ⟨rfl, rfl⟩

/-- C3: in the ExitOnError-aware sequential driver (modelled from the
spec, since the option-threading driver is missing from the snapshot),
whenever `ExitOnError` is set, a non-async item that completes with a
non-zero `Continue` code has its result converted into `Exit`: the driver
returns that code (joined with the item's own handles) and the result is
the same for every possible list of remaining items, i.e. they are never
executed. -/
theorem c3_exit_on_error_converts_continue_to_exit :
    ∀ (env : Env) (itemEval : Sequence → ShellStateO → ExecuteResultO)
      (st : ShellStateO) (item : SequentialListItem) (code : Int)
      (changes : List EnvChangeO) (handles : List Int),
      item.is_async = false →
      itemEval item.sequence st
        = ExecuteResultO.Continue code changes handles →
      code ≠ 0 →
      ShellOptions.ExitOnError ∈ st.options →
      ∀ rest : List SequentialListItem,
        execute_sequential_list_o env itemEval (.mk (item :: rest)) st
            AsyncCommandBehavior.Wait
          = .Exit (wait_handles code handles) [] := by
  intro env itemEval st item code changes handles hasync heval hcode hopt
    rest
  unfold execute_sequential_list_o
  simp only [SequentialList.items]
  unfold run_seq_items_o
  simp [hasync, heval, hcode, hopt]

/-- Witness for C3: `set -e` in force, a first item failing with code 2,
and a second item — the driver exits with 2. -/
theorem c3_exit_on_error_witness :
    execute_sequential_list_o env0
        (fun _ _ => ExecuteResultO.Continue 2 [] [])
        (.mk
          [⟨false, simple_cmd_seq ["false"]⟩,
           ⟨false, simple_cmd_seq ["echo", "no"]⟩])
        ⟨st0, [ShellOptions.ExitOnError]⟩ AsyncCommandBehavior.Wait
      = .Exit 2 [] :=
  c3_exit_on_error_converts_continue_to_exit env0
    (fun _ _ => ExecuteResultO.Continue 2 [] [])
    ⟨st0, [ShellOptions.ExitOnError]⟩ ⟨false, simple_cmd_seq ["false"]⟩ 2
    [] [] rfl rfl (by decide) (by decide)
    [⟨false, simple_cmd_seq ["echo", "no"]⟩]

/-- C9: the arithmetic ternary `c ? t : f` evaluates the TRUE branch when
the condition value is zero and the FALSE branch when it is non-zero (the
opposite of C), and only the chosen branch: the result is that branch's
evaluation in the post-condition state, for every possible other
branch. -/
theorem c9_ternary_zero_selects_true_branch :
    ∀ (fm : FloatModel) (env : Env) (f : Nat) (st st1 : ShellState)
      (condition : ArithmeticPart) (v : ArithmeticResult fm),
      evaluate_arithmetic_part fm env f condition st = .ok (.ok (v, st1)) →
      (v.is_zero = true →
        ∀ t fe,
          evaluate_arithmetic_part fm env (f + 1)
              (.TripleConditionalExpr condition t fe) st
            = evaluate_arithmetic_part fm env f t st1)
      ∧ (v.is_zero = false →
        ∀ t fe,
          evaluate_arithmetic_part fm env (f + 1)
              (.TripleConditionalExpr condition t fe) st
            = evaluate_arithmetic_part fm env f fe st1) := by
  intro fm env f st st1 condition v hcond
  constructor
  · intro hz t fe
    simp only [evaluate_arithmetic_part, hcond, hz]
    simp
  · intro hz t fe
    simp only [evaluate_arithmetic_part, hcond, hz]
    simp

/-- Witness for C9: `0 ? 7 : 9` evaluates to 7. -/
theorem c9_ternary_witness :
    evaluate_arithmetic_part fmUnit env0 4
        (.TripleConditionalExpr (.Number "0") (.Number "7") (.Number "9"))
        st0
      = .ok (.ok (ArithmeticResult.new (.Integer 7), st0)) :=
  ((c9_ternary_zero_selects_true_branch fmUnit env0 3 st0 st0 (.Number "0")
        (ArithmeticResult.new (.Integer 0)) rfl).1
      rfl (.Number "7") (.Number "9")).trans rfl

/-- C8 counterexample: the claim says every negated pipeline reports the
inversion of the inner final code (0 becomes 1).  A negated pipeline whose
single command returns `Exit 0` (as the `exit` builtin does) reports 0,
not 1: the negation match passes `Exit` results through unchanged. -/
theorem c8_negated_exit_counterexample :
    execute_pipeline fmUnit envX 12 (.mk true (.Command (cmdW "exitzero")))
        st0
      = .ok (.Exit 0 [])
    ∧ (0 : Int) ≠ 1 :=
  ⟨rfl, by decide⟩

/-- C8 (amended): pipeline negation inverts the code of a `Continue`
result of the inner pipeline (0 ↔ 1, non-zero → 0) and passes an `Exit`
result through with its code unchanged. -/
theorem c8_negation_inverts_continue_codes :
    ∀ (fm : FloatModel) (env : Env) (f : Nat) (st : ShellState)
      (inner : PipelineInner),
      (∀ code ch hs,
        execute_pipeline_inner fm env f inner st
          = .ok (.Continue code ch hs) →
        execute_pipeline fm env (f + 1) (.mk true inner) st
          = .ok (.Continue (if code = 0 then 1 else 0) ch hs))
      ∧ (∀ code hs,
        execute_pipeline_inner fm env f inner st = .ok (.Exit code hs) →
        execute_pipeline fm env (f + 1) (.mk true inner) st
          = .ok (.Exit code hs)) := by
  intro fm env f st inner
  constructor
  · intro code ch hs h
    simp only [execute_pipeline, h]
    simp
  · intro code hs h
    simp only [execute_pipeline, h]
    simp

/-- Witness for C8: `! five` (inner code 5, a `Continue`) reports 0. -/
theorem c8_negation_witness :
    execute_pipeline fmUnit envX 12 (.mk true (.Command (cmdW "five"))) st0
      = .ok (.Continue 0 [] []) :=
  ((c8_negation_inverts_continue_codes fmUnit envX 11 st0
        (.Command (cmdW "five"))).1
      5 [] [] rfl).trans rfl

/-- C10: every completed multi-stage pipe sequence yields a `Continue`
result with an empty change set; when the stage results end with an
`Exit(code, h)` (e.g. from the `exit` builtin), the result is `Continue`
with that same code, the exit's handles first and the earlier stages'
handles after (so an exit inside a pipeline never terminates the
enclosing scope and no stage's env changes propagate). -/
theorem c10_pipe_sequence_continue_empty_changes :
    ∀ (fm : FloatModel) (env : Env) (f : Nat) (ps : PipeSequence)
      (st : ShellState),
      (∀ r, execute_pipe_sequence fm env (f + 1) ps st = .ok r →
        ∃ code handles, r = .Continue code [] handles)
      ∧ (∀ results code hs,
          run_pipe_stages fm env f
              (pipeline_inner_commands (.PipeSequence ps)) st
            = .ok results →
          results.getLast? = some (.Exit code hs) →
          execute_pipe_sequence fm env (f + 1) ps st
            = .ok
                (.Continue code []
                  (hs ++
                    results.dropLast.foldr
                      (fun r acc => r.into_handles ++ acc) []))) := by
  intro fm env f ps st
  constructor
  · intro r hr
    simp only [execute_pipe_sequence] at hr
    cases hrs :
        run_pipe_stages fm env f
          (pipeline_inner_commands (.PipeSequence ps)) st with
    | error i => rw [hrs] at hr; exact absurd hr (by simp)
    | ok results =>
        rw [hrs] at hr
        dsimp only at hr
        cases hlast : results.getLast? with
        | none => rw [hlast] at hr; exact absurd hr (by simp)
        | some last =>
            rw [hlast] at hr
            cases last with
            | Exit code handles =>
                dsimp only at hr
                injection hr with h1
                exact ⟨code, _, h1.symm⟩
            | Continue code ch2 handles =>
                dsimp only at hr
                injection hr with h1
                exact ⟨code, _, h1.symm⟩
  · intro results code hs hrs hlast
    simp only [execute_pipe_sequence, hrs, hlast]

/-- Witness for C10: `five | exitfive` — the last stage's `Exit 5` is
converted to `Continue 5` with no changes. -/
theorem c10_pipe_sequence_witness :
    execute_pipe_sequence fmUnit envX 15
        (.mk (cmdW "five") .Stdout (.Command (cmdW "exitfive"))) st0
      = .ok (.Continue 5 [] []) :=
  ((c10_pipe_sequence_continue_empty_changes fmUnit envX 14
        (.mk (cmdW "five") .Stdout (.Command (cmdW "exitfive"))) st0).2
      [.Continue 5 [] [], .Exit 5 []] 5 [] rfl rfl).trans rfl

/-- C6: in a boolean list, the next sequence runs exactly when the
operator consumes the first sequence's exit code (`&&` with code 0, `||`
with non-zero code), continuing in the state updated with `?` and the
accumulated changes; otherwise evaluation walks down the right spine
(`boolean_next`) and resumes at the first sequence whose operator
consumes the code — or, when there is none, returns the first result
untouched, independent of everything in the skipped sequences. -/
theorem c6_boolean_list_short_circuit :
    ∀ (fm : FloatModel) (env : Env) (f : Nat) (st : ShellState)
      (current next : Sequence) (op : BooleanListOperator) (code : Int)
      (ch : List EnvChange) (hs : List Int),
      execute_sequence fm env f current st = .ok (.Continue code ch hs) →
      ((op = .And ∧ code = 0) ∨ (op = .Or ∧ code ≠ 0) →
        execute_sequence fm env (f + 1)
            (.BooleanList (.mk current op next)) st
          = boolean_merge ch hs
              (execute_sequence fm env f next
                ((st.apply_env_var env "?"
                    (toString code)).apply_changes env ch)))
      ∧ ((op = .And ∧ code ≠ 0) ∨ (op = .Or ∧ code = 0) →
        execute_sequence fm env (f + 1)
            (.BooleanList (.mk current op next)) st
          = match boolean_next code next with
            | none => .ok (.Continue code ch hs)
            | some nxt =>
                boolean_merge ch hs
                  (execute_sequence fm env f nxt
                    ((st.apply_env_var env "?"
                        (toString code)).apply_changes env ch))) := by
  intro fm env f st current next op code ch hs hcur
  constructor
  · intro hd
    have hmv : op.moves_next_for_exit_code code = true := by
      rcases hd with ⟨hop, hc⟩ | ⟨hop, hc⟩ <;> subst hop <;>
        simp [BooleanListOperator.moves_next_for_exit_code, hc]
    simp only [execute_sequence, hcur, hmv]
    cases hnext :
        execute_sequence fm env f next
          ((st.apply_env_var env "?" (toString code)).apply_changes env
            ch) with
    | error i => simp [boolean_merge, hnext]
    | ok r2 => cases r2 <;> simp [boolean_merge, hnext]
  · intro hd
    have hmv : op.moves_next_for_exit_code code = false := by
      rcases hd with ⟨hop, hc⟩ | ⟨hop, hc⟩ <;> subst hop <;>
        simp [BooleanListOperator.moves_next_for_exit_code, hc]
    simp only [execute_sequence, hcur, hmv]
    cases hbn : boolean_next code next with
    | none => simp [hbn]
    | some nxt =>
        simp only [hbn]
        cases hnext :
            execute_sequence fm env f nxt
              ((st.apply_env_var env "?" (toString code)).apply_changes
                env ch) with
        | error i => simp [boolean_merge, hnext]
        | ok r2 => cases r2 <;> simp [boolean_merge, hnext]

/-- Witness for C6: `X=1 && five` — the left side succeeds with code 0,
so the right side runs and the final code is 5 with the shell-var change
accumulated. -/
theorem c6_boolean_list_witness :
    execute_sequence fmUnit envX 13
        (.BooleanList
          (.mk (.ShellVar (.mk "X" (.mk [.Text "1"])))
            BooleanListOperator.And (simple_cmd_seq ["five"])))
        st0
      = .ok (.Continue 5 [EnvChange.SetShellVar "X" "1"] []) :=
  ((c6_boolean_list_short_circuit fmUnit envX 12 st0
        (.ShellVar (.mk "X" (.mk [.Text "1"]))) (simple_cmd_seq ["five"])
        BooleanListOperator.And 0 [EnvChange.SetShellVar "X" "1"] []
        rfl).1
      (Or.inl ⟨rfl, rfl⟩)).trans rfl

/-- C5 counterexample: the claim says that after a non-async item
completes with `Continue(code, …)`, the state used for the following
items has `last_command_exit_code = code`, so a later `$?` expands to
that code.  Running `five; retcode $?` (where `five` completes with code
5 and `retcode N` exits with `N`): the final code is 0 — the initial
`last_command_exit_code` — not 5, because the driver stores the code in
the variable `?` but never touches `last_command_exit_code`, which is
what `WordPart::ExitStatus` reads. -/
theorem c5_exit_status_counterexample :
    execute_sequential_list fmUnit envX 20
        (.mk
          [⟨false, simple_cmd_seq ["five"]⟩,
           ⟨false,
            Sequence.Pipeline
              (.mk false
                (.Command
                  (.mk
                    (.Simple
                      (.mk [] [.mk [.Text "retcode"], .mk [.ExitStatus]]))
                    none)))⟩])
        st0 AsyncCommandBehavior.Wait
      = .ok (.Continue 0 [] [])
    ∧ (0 : Int) ≠ 5 :=
  ⟨rfl, by decide⟩

/-- C5 (amended): after a non-async item completes with
`Continue(code, changes, _)`, the driver's state update applies the
changes and then stores the decimal code in the variable `?` (so
`get_var "?"` sees it), but `last_command_exit_code` is left unchanged —
and a `WordPart::ExitStatus` encountered later appends the text of that
unchanged `last_command_exit_code`, i.e. the value from before the list
began, not the preceding item's code. -/
theorem c5_amended_driver_sets_var_q_not_exit_code :
    ∀ (env : Env) (st : ShellState) (changes : List EnvChange)
      (code : Int),
      (sequential_item_state_update env st changes code).get_var "?"
          = some (toString code)
      ∧ (sequential_item_state_update env st changes
            code).last_command_exit_code
          = st.last_command_exit_code
      ∧ ∀ (fm : FloatModel) (f : Nat) (rest : List WordPart)
          (is_quoted : Bool) (st2 : ShellState)
          (result : WordPartsResult) (current_text : List TextPart)
          (chs : List EnvChange),
          word_parts_loop fm env (f + 1) (WordPart.ExitStatus :: rest)
              is_quoted st2 result current_text chs
            = word_parts_loop fm env f rest is_quoted st2 result
                (current_text
                  ++ [TextPart.Text
                      (toString st2.last_command_exit_code)])
                chs := by
  intro env st changes code
  refine ⟨?_, ?_, ?_⟩
  · unfold sequential_item_state_update
    exact get_var_q_after_apply_env_var _ env _
  · unfold sequential_item_state_update
    rw [apply_env_var_last_command_exit_code,
      apply_changes_last_command_exit_code]
  · intro fm f rest is_quoted st2 result current_text chs
    rfl

/-- C7: a subshell returns an empty change set to the parent — an
applying parent keeps its env vars, shell vars and cwd — and a command
substitution word part likewise completes with an empty change set,
whatever the inner list did. -/
theorem c7_subshell_and_substitution_isolation :
    ∀ (fm : FloatModel) (env : Env) (f : Nat) (list : SequentialList)
      (st parent : ShellState),
      (∀ r, execute_subshell fm env (f + 1) list st = .ok r →
        r.into_changes = []
        ∧ (parent.apply_changes env r.into_changes).env_vars
            = parent.env_vars
        ∧ (parent.apply_changes env r.into_changes).shell_vars
            = parent.shell_vars
        ∧ (parent.apply_changes env r.into_changes).cwd = parent.cwd)
      ∧ (∀ wr,
          evaluate_word_parts fm env (f + 3) [WordPart.Command list] st
            = .ok (.ok wr) →
          wr.changes = []) := by
  intro fm env f list st parent
  constructor
  · intro r hr
    simp only [execute_subshell] at hr
    cases hres :
        execute_sequential_list fm env f list st
          AsyncCommandBehavior.Yield with
    | error i => rw [hres] at hr; exact absurd hr (by simp)
    | ok r0 =>
        rw [hres] at hr
        cases r0 with
        | Exit code handles =>
            dsimp only at hr
            injection hr with h1
            subst h1
            exact ⟨rfl, rfl, rfl, rfl⟩
        | Continue code ch handles =>
            dsimp only at hr
            injection hr with h1
            subst h1
            exact ⟨rfl, rfl, rfl, rfl⟩
  · intro wr hw
    simp only [evaluate_word_parts, evaluate_word_parts_inner,
      word_parts_loop] at hw
    cases hsub :
        evaluate_command_substitution fm env f list
          st.with_child_token with
    | error i => rw [hsub] at hw; exact absurd hw (by simp)
    | ok text =>
        rw [hsub] at hw
        dsimp only at hw
        cases hsp : split_expansion_text text with
        | nil =>
            rw [hsp] at hw
            dsimp only at hw
            -- the loop continues on the empty part list
            cases f with
            | zero => exact absurd hw (by simp [word_parts_loop])
            | succ f2 =>
                simp only [word_parts_loop] at hw
                injection hw with h1
                injection h1 with h2
                subst h2
                rfl
        | cons first_part split_rest =>
            rw [hsp] at hw
            dsimp only at hw
            cases split_rest with
            | nil =>
                dsimp only at hw
                cases f with
                | zero => exact absurd hw (by simp [word_parts_loop])
                | succ f2 =>
                    simp only [word_parts_loop] at hw
                    -- final fragment evaluation
                    cases hewt :
                        evaluate_word_text env st
                          ([] ++ [first_part]) false with
                    | error i =>
                        rw [hewt] at hw; exact absurd hw (by simp)
                    | ok inner =>
                        rw [hewt] at hw
                        cases inner with
                        | error e =>
                            exact absurd hw (by simp)
                        | ok rr =>
                            dsimp only at hw
                            injection hw with h1
                            injection h1 with h2
                            subst h2
                            have h0 :=
                              evaluate_word_text_ok_changes env st
                                ([] ++ [first_part]) false rr hewt
                            simp [WordPartsResult.extend, h0,
                              WordPartsResult.new]
            | cons s2 srest =>
                dsimp only at hw
                cases hewt :
                    evaluate_word_text env st ([] ++ [first_part])
                      false with
                | error i =>
                    rw [hewt] at hw; exact absurd hw (by simp)
                | ok inner =>
                    rw [hewt] at hw
                    cases inner with
                    | error e => exact absurd hw (by simp)
                    | ok r1 =>
                        dsimp only at hw
                        cases hmid :
                            evaluate_middle_text_parts env st false
                              ((s2 :: srest).dropLast)
                              ((WordPartsResult.new [] []).extend r1)
                            with
                        | error i =>
                            rw [hmid] at hw; exact absurd hw (by simp)
                        | ok minner =>
                            rw [hmid] at hw
                            cases minner with
                            | error e => exact absurd hw (by simp)
                            | ok result2 =>
                                dsimp only at hw
                                have hr2 : result2.changes = [] := by
                                  refine
                                    evaluate_middle_text_parts_ok_changes
                                      env st false _ _ _ ?_ hmid
                                  have h0 :=
                                    evaluate_word_text_ok_changes env st
                                      ([] ++ [first_part]) false r1 hewt
                                  simp [WordPartsResult.extend, h0,
                                    WordPartsResult.new]
                                cases hlast :
                                    (s2 :: srest).getLast? with
                                | none =>
                                    rw [hlast] at hw
                                    exact absurd hw (by simp)
                                | some last_part =>
                                    rw [hlast] at hw
                                    dsimp only at hw
                                    cases f with
                                    | zero =>
                                        exact absurd hw
                                          (by simp [word_parts_loop])
                                    | succ f2 =>
                                        simp only [word_parts_loop] at hw
                                        cases hewt2 :
                                            evaluate_word_text env st
                                              [last_part] false with
                                        | error i =>
                                            rw [hewt2] at hw
                                            exact absurd hw (by simp)
                                        | ok inner2 =>
                                            rw [hewt2] at hw
                                            cases inner2 with
                                            | error e =>
                                                exact absurd hw (by simp)
                                            | ok r3 =>
                                                dsimp only at hw
                                                injection hw with h1
                                                injection h1 with h2
                                                subst h2
                                                have h3 :=
                                                  evaluate_word_text_ok_changes
                                                    env st [last_part]
                                                    false r3 hewt2
                                                simp
                                                  [WordPartsResult.extend,
                                                    hr2, h3]

/-- Witness for C7: a subshell running `setx` (which exports `X=1`)
returns no changes, and the parent state keeps its fields; the same list
as a command substitution expands with no changes. -/
theorem c7_isolation_witness :
    (execute_subshell fmUnit envX 20
        (.mk [⟨false, simple_cmd_seq ["setx"]⟩]) st0
      = .ok (.Continue 0 [] []))
    ∧ ((ExecuteResult.Continue 0 [] []).into_changes = []
        ∧ (st0.apply_changes envX
              (ExecuteResult.Continue 0 [] []).into_changes).env_vars
            = st0.env_vars
        ∧ (st0.apply_changes envX
              (ExecuteResult.Continue 0 [] []).into_changes).shell_vars
            = st0.shell_vars
        ∧ (st0.apply_changes envX
              (ExecuteResult.Continue 0 [] []).into_changes).cwd
            = st0.cwd)
    ∧ (∀ wr,
        evaluate_word_parts fmUnit envX 22
            [WordPart.Command (.mk [⟨false, simple_cmd_seq ["setx"]⟩])]
            st0
          = .ok (.ok wr) →
        wr.changes = []) :=
  ⟨rfl,
    (c7_subshell_and_substitution_isolation fmUnit envX 19
          (.mk [⟨false, simple_cmd_seq ["setx"]⟩]) st0 st0).1
      (.Continue 0 [] []) rfl,
    (c7_subshell_and_substitution_isolation fmUnit envX 19
          (.mk [⟨false, simple_cmd_seq ["setx"]⟩]) st0 st0).2⟩

end DenoTaskShell
